import Mathlib

/-
Verification of the inventory-aware cart/order engine of the
eCommerceDs Node/Express/PostgreSQL backend, shallowly embedded in Lean.

Modeling conventions, stated once:
* Table rows are Lean structures; each table is a `List` of rows inside `Db`.
* DECIMAL(10,2) currency values are modeled as `Int` (fixed point, cents);
  amounts are `Int`, validated positive by the operations exactly where the
  source validates `Number(amount)`.
* Emails are modeled as already-normalized strings.  The source normalizes
  with trim/lowercase on both sides of every comparison
  (`LOWER(TRIM("UserEmail")) = :email` with `email.toLowerCase()`), so all
  email comparisons collapse to string equality here.
* Each controller operation runs inside one sequelize transaction that is
  rolled back on failure, so a failing run is modeled as returning the
  original state; service functions that commit independently (notably
  `updateStock`, which opens its own transaction) are modeled as committing
  their effect even when the caller subsequently fails.
* `SELECT ... LIMIT`-free sequelize reads destructure the first returned
  row, which is `List.find?` over the table.
-/

namespace ECommerce

/-- A row of the `Records` table (the inventory item): id, unit price, stock.
Only the columns the cart/order engine touches are modeled. -/
structure RecordRow where
  idRecord : Nat
  price : Int
  stock : Int
  deriving DecidableEq, Repr

/-- A row of the `Carts` table: id, owning user's (normalized) email,
running `TotalPrice`, and the `Enabled` flag. -/
structure CartRow where
  idCart : Nat
  userEmail : String
  totalPrice : Int
  enabled : Bool
  deriving DecidableEq, Repr

/-- A row of the `CartDetails` table (a cart line): cart, record, amount and
the price snapshot taken when the line was created. -/
structure CartDetailRow where
  idCartDetail : Nat
  cartId : Nat
  recordId : Nat
  amount : Int
  price : Int
  deriving DecidableEq, Repr

/-- A row of the `Orders` table (columns relevant to the engine). -/
structure OrderRow where
  idOrder : Nat
  userEmail : String
  total : Int
  cartId : Nat
  deriving DecidableEq, Repr

/-- A row of the `OrderDetails` table. -/
structure OrderDetailRow where
  idOrderDetail : Nat
  orderId : Nat
  recordId : Nat
  amount : Int
  price : Int
  deriving DecidableEq, Repr

/-- The database state: the five tables plus the auto-increment counters. -/
structure Db where
  records : List RecordRow
  carts : List CartRow
  cartDetails : List CartDetailRow
  orders : List OrderRow
  orderDetails : List OrderDetailRow
  nextCartId : Nat
  nextCartDetailId : Nat
  nextOrderId : Nat
  nextOrderDetailId : Nat
  deriving DecidableEq, Repr

/-- `SELECT * FROM "Records" WHERE "IdRecord" = :recordId` (first row). -/
def findRecord (st : Db) (recordId : Nat) : Option RecordRow :=
  st.records.find? (fun r => r.idRecord == recordId)

/-- `SELECT * FROM "Carts" WHERE LOWER(TRIM("UserEmail")) = :email AND
"Enabled" = true` (first row); also `Cart.findOne` with the same filter. -/
def findEnabledCart (st : Db) (email : String) : Option CartRow :=
  st.carts.find? (fun c => c.userEmail == email && c.enabled)

/-- `SELECT * FROM "CartDetails" WHERE "CartId" = :cartId AND
"RecordId" = :recordId` (first row). -/
def findCartDetail (st : Db) (cartId recordId : Nat) : Option CartDetailRow :=
  st.cartDetails.find? (fun d => d.cartId == cartId && d.recordId == recordId)

/-- `UPDATE "Records" SET "Stock" = "Stock" + :delta WHERE "IdRecord" = :recordId`. -/
def updateRecordStock (st : Db) (recordId : Nat) (delta : Int) : Db :=
  { st with records := st.records.map (fun r =>
      if r.idRecord == recordId then { r with stock := r.stock + delta } else r) }

/-- `UPDATE "Records" SET "Stock" = :newStock WHERE "IdRecord" = :recordId`. -/
def setRecordStock (st : Db) (recordId : Nat) (newStock : Int) : Db :=
  { st with records := st.records.map (fun r =>
      if r.idRecord == recordId then { r with stock := newStock } else r) }

/-- The `Price` branch of `recordService.update`:
`UPDATE "Records" SET "Price" = :price WHERE "IdRecord" = :id`. -/
def updateRecordPrice (st : Db) (recordId : Nat) (newPrice : Int) : Db :=
  { st with records := st.records.map (fun r =>
      if r.idRecord == recordId then { r with price := newPrice } else r) }

/-- `UPDATE "CartDetails" SET "Amount" = :newAmount WHERE "IdCartDetail" = :id`. -/
def setCartDetailAmount (st : Db) (idCartDetail : Nat) (newAmount : Int) : Db :=
  { st with cartDetails := st.cartDetails.map (fun d =>
      if d.idCartDetail == idCartDetail then { d with amount := newAmount } else d) }

/-- `DELETE FROM "CartDetails" WHERE "IdCartDetail" = :id`. -/
def deleteCartDetail (st : Db) (idCartDetail : Nat) : Db :=
  { st with cartDetails := st.cartDetails.filter (fun d => !(d.idCartDetail == idCartDetail)) }

/-- `INSERT INTO "CartDetails" ("CartId", "RecordId", "Amount", "Price")`. -/
def insertCartDetail (st : Db) (cartId recordId : Nat) (amount price : Int) : Db :=
  { st with
    cartDetails := st.cartDetails ++ [⟨st.nextCartDetailId, cartId, recordId, amount, price⟩],
    nextCartDetailId := st.nextCartDetailId + 1 }

/-- `UPDATE "Carts" SET "TotalPrice" = "TotalPrice" + :delta WHERE "IdCart" = :cartId`;
also `cartService.updateCartTotalPrice` (`increment('TotalPrice')` by `delta`). -/
def updateCartTotalPrice (st : Db) (cartId : Nat) (delta : Int) : Db :=
  { st with carts := st.carts.map (fun c =>
      if c.idCart == cartId then { c with totalPrice := c.totalPrice + delta } else c) }

/-- Helper for the `ON CONFLICT` upsert: re-enables the first cart row whose
`UserEmail` equals the conflict key. -/
def reenableFirstCart : List CartRow → String → List CartRow
  | [], _ => []
  | c :: cs, e =>
    if c.userEmail == e then { c with enabled := true } :: cs
    else c :: reenableFirstCart cs e

/-- `INSERT INTO "Carts" ("UserEmail", "TotalPrice", "Enabled") VALUES (:email, 0, true)
ON CONFLICT ("UserEmail") DO UPDATE SET "Enabled" = true RETURNING *` from
`addToCart`: under the unique index the conflict target presupposes, this
either re-enables the user's existing cart row or inserts a fresh one.
Returns the resulting cart together with the new state. -/
def insertCartOnConflict (st : Db) (email : String) : CartRow × Db :=
  match st.carts.find? (fun c => c.userEmail == email) with
  | some c => ({ c with enabled := true }, { st with carts := reenableFirstCart st.carts email })
  | none =>
    let c : CartRow := ⟨st.nextCartId, email, 0, true⟩
    (c, { st with carts := st.carts ++ [c], nextCartId := st.nextCartId + 1 })

/-- `cartService.createCart`: `Cart.findOrCreate` on
`(UserEmail = normalized email, Enabled = true)`; creates a fresh enabled
cart with `TotalPrice = 0` when the user has no active one. -/
def createCart (st : Db) (email : String) : CartRow × Db :=
  match findEnabledCart st email with
  | some c => (c, st)
  | none =>
    let c : CartRow := ⟨st.nextCartId, email, 0, true⟩
    (c, { st with carts := st.carts ++ [c], nextCartId := st.nextCartId + 1 })

/-- Lines 263-299 of the cart-details controller: lock the existing cart
line for (cart, item) if present; if it exists set `Amount += amount`
(the price snapshot is NOT refreshed), else insert a new line with
`Price = ` the record's current price (passed in as `p0`). -/
def addMutationPhase (st1 : Db) (cid r : Nat) (a p0 : Int) : Db :=
  match findCartDetail st1 cid r with
  | some d => setCartDetailAmount st1 d.idCartDetail (d.amount + a)
  | none => insertCartDetail st1 cid r a p0

/-- Step 4 of `removeFromCart`: delete the line when the new amount is zero,
otherwise update it. -/
def removeMutationPhase (st1 : Db) (tid : Nat) (newAmount : Int) : Db :=
  if newAmount = 0 then deleteCartDetail st1 tid
  else setCartDetailAmount st1 tid newAmount

/-- Result of `addToCart`, mirroring the controller's responses. -/
inductive AddResult where
  | ok (updatedStock : Int) (cartId : Nat)
  | invalidAmount
  | recordNotFound
  | insufficientStock (availableStock : Int)
  deriving DecidableEq, Repr

/-- `addToCart` from the cart-details controller.  All statements run in one
transaction that is rolled back on every failure path, so failures return the
input state.  Note the cart total is incremented by `recordData.Price * amount`,
the record's current catalog price, while a pre-existing line keeps its stored
snapshot price. -/
def addToCart (email : String) (recordId : Nat) (amount : Int) (st : Db) : AddResult × Db :=
  if amount ≤ 0 then (.invalidAmount, st)
  else
    match findRecord st recordId with
    | none => (.recordNotFound, st)
    | some rec0 =>
      if rec0.stock < amount then (.insufficientStock rec0.stock, st)
      else
        let resolved :=
          match findEnabledCart st email with
          | some c => (c, st)
          | none => insertCartOnConflict st email
        let cart := resolved.1
        let st1 := resolved.2
        let st2 := addMutationPhase st1 cart.idCart recordId amount rec0.price
        let st3 := updateRecordStock st2 recordId (-amount)
        let st4 := updateCartTotalPrice st3 cart.idCart (rec0.price * amount)
        (.ok (rec0.stock - amount) cart.idCart, st4)

/-- Result of `removeFromCart`, mirroring the controller's responses. -/
inductive RemoveResult where
  | ok (remainingInCart : Int)
  | invalidAmount
  | itemNotFound
  | invalidRemoval (currentAmount : Int)
  deriving DecidableEq, Repr

/-- Outcome of `removeFromCart`: the response, the committed state, and
whether the handler issued a cart-creation insert while processing the
removal (the insert is part of the rolled-back transaction when the
operation subsequently fails). -/
structure RemoveOutcome where
  result : RemoveResult
  db : Db
  cartCreated : Bool
  deriving DecidableEq, Repr

/-- `removeFromCart` from the cart-details controller.  When the user has no
active cart the handler calls `cartService.createCart` inside its transaction
and continues with the fresh cart; every failure path rolls the whole
transaction back (returning the input state). -/
def removeFromCart (email : String) (recordId : Nat) (amount : Int) (st : Db) : RemoveOutcome :=
  if amount ≤ 0 then ⟨.invalidAmount, st, false⟩
  else
    let resolved :=
      match findEnabledCart st email with
      | some c => (c, st, false)
      | none =>
        let created := createCart st email
        (created.1, created.2, true)
    let cart := resolved.1
    let st1 := resolved.2.1
    let created := resolved.2.2
    match findCartDetail st1 cart.idCart recordId with
    | none => ⟨.itemNotFound, st, created⟩
    | some d =>
      if d.amount < amount then ⟨.invalidRemoval d.amount, st, created⟩
      else
        let newAmount := d.amount - amount
        let st2 := removeMutationPhase st1 d.idCartDetail newAmount
        let st3 := updateRecordStock st2 recordId amount
        let st4 := updateCartTotalPrice st3 cart.idCart (-(d.price * amount))
        ⟨.ok newAmount, st4, created⟩

/-- `cartDetailService.getCartDetailsByCartId`: selects the cart's lines, but
catches every error and returns the empty list instead of propagating the
failure.  `readFails` injects the caught database failure. -/
def getCartDetailsByCartId (st : Db) (cartId : Nat) (readFails : Bool) : List CartDetailRow :=
  if readFails then []
  else st.cartDetails.filter (fun d => d.cartId == cartId)

/-- The order-line creation loop of the conversion: one
`OrderDetail.create` (a separate auto-committed insert) per cart line. -/
def insertOrderDetails (st : Db) (orderId : Nat) (details : List CartDetailRow) : Db :=
  details.foldl (fun acc d =>
    { acc with
      orderDetails := acc.orderDetails ++ [⟨acc.nextOrderDetailId, orderId, d.recordId, d.amount, d.price⟩],
      nextOrderDetailId := acc.nextOrderDetailId + 1 }) st

/-- `cartDetailService.removeAllDetailsFromCart`:
`DELETE FROM "CartDetails" WHERE "CartId" = :cartId`. -/
def removeAllDetailsFromCart (st : Db) (cartId : Nat) : Db :=
  { st with cartDetails := st.cartDetails.filter (fun d => !(d.cartId == cartId)) }

/-- Result of `createOrderFromCart`, mirroring the controller's responses. -/
inductive ConvertResult where
  | ok (orderId : Nat)
  | cartEmptyOrNotFound
  | cartEmpty
  | failed
  deriving DecidableEq, Repr

/-- `createOrderFromCart` from the orders controller.  The source opens NO
transaction: the order insert, each order-line insert, the cart clearing and
the total reset are separate auto-committed statements.  `fault = some k`
models a failure while inserting the order line for the (k+1)-th cart line:
the statements already executed (the `Order` insert and the first k line
inserts) remain committed, and the controller merely reports the error. -/
def createOrderFromCart (email : String) (st : Db) (readFails : Bool) (fault : Option Nat) :
    ConvertResult × Db :=
  match findEnabledCart st email with
  | none => (.cartEmptyOrNotFound, st)
  | some cart =>
    if cart.totalPrice ≤ 0 then (.cartEmptyOrNotFound, st)
    else
      let details := getCartDetailsByCartId st cart.idCart readFails
      if details.isEmpty then (.cartEmpty, st)
      else
        let order : OrderRow := ⟨st.nextOrderId, email, cart.totalPrice, cart.idCart⟩
        let st1 : Db := { st with orders := st.orders ++ [order], nextOrderId := st.nextOrderId + 1 }
        match fault with
        | some k => (.failed, insertOrderDetails st1 order.idOrder (details.take k))
        | none =>
          let st2 := insertOrderDetails st1 order.idOrder details
          let st3 := removeAllDetailsFromCart st2 cart.idCart
          let st4 := updateCartTotalPrice st3 cart.idCart (-cart.totalPrice)
          (.ok order.idOrder, st4)

/-- `recordService.updateStock`: opens and commits ITS OWN transaction; it
accepts only `(id, amount)` and therefore silently drops the transaction
argument `disableCart` passes.  `none` models its thrown errors (record
missing, or the new stock would be negative), in which case nothing of this
call persists; `some` is a state with this call's effect already committed. -/
def updateStock (st : Db) (recordId : Nat) (amount : Int) : Option Db :=
  match findRecord st recordId with
  | none => none
  | some r =>
    let newStock := r.stock + amount
    if newStock < 0 then none else some (setRecordStock st recordId newStock)

/-- A failure injected into `disableCart`: either the `updateStock` call for
the k-th cart line throws (e.g. a lock timeout), or the final
`cart.save` (the `Enabled := false` write) throws. -/
inductive DisableFault where
  | stockAt (k : Nat)
  | save
  deriving DecidableEq, Repr

/-- The stock-restoration loop of `disableCart`.  Because each
`updateStock` call commits in its own transaction, increments performed
before a failure persist; the returned flag is whether the loop completed. -/
def restoreStocks (st : Db) (details : List CartDetailRow) (idx : Nat)
    (fault : Option DisableFault) : Db × Bool :=
  match details with
  | [] => (st, true)
  | d :: ds =>
    if fault == some (.stockAt idx) then (st, false)
    else
      match updateStock st d.recordId d.amount with
      | none => (st, false)
      | some st' => restoreStocks st' ds (idx + 1) fault

/-- `UPDATE "Carts" SET "Enabled" = :e WHERE "IdCart" = :cartId`
(the effect of `cart.save` after mutating `cart.Enabled`). -/
def setCartEnabled (st : Db) (cartId : Nat) (e : Bool) : Db :=
  { st with carts := st.carts.map (fun c =>
      if c.idCart == cartId then { c with enabled := e } else c) }

/-- Result of `disableCart`, mirroring the service's outcomes. -/
inductive DisableResult where
  | ok (cartId : Nat)
  | noActiveCart
  | failed
  deriving DecidableEq, Repr

/-- `cartService.disableCart`: reads the active cart, reads its lines through
the error-swallowing `getCartDetailsByCartId`, restores stock line by line via
`updateStock` (each call committing independently, since `updateStock` ignores
the transaction argument it is passed), then sets `Enabled := false` inside
transaction `t`.  A failure rolls back `t` — which contains only the save —
so already-committed stock increments survive. -/
def disableCart (email : String) (st : Db) (readFails : Bool)
    (fault : Option DisableFault) : DisableResult × Db :=
  match findEnabledCart st email with
  | none => (.noActiveCart, st)
  | some cart =>
    let details := getCartDetailsByCartId st cart.idCart readFails
    let restored := restoreStocks st details 0 fault
    if !restored.2 then (.failed, restored.1)
    else if fault == some .save then (.failed, restored.1)
    else (.ok cart.idCart, setCartEnabled restored.1 cart.idCart false)

/-- Result of `enableCart`, mirroring the service's outcomes. -/
inductive EnableResult where
  | ok
  | noDisabledCart
  deriving DecidableEq, Repr

/-- `cartService.enableCart`:
`Cart.update({Enabled: true}, where: {UserEmail: email, Enabled: false})` —
it flips EVERY disabled cart of the user to enabled, not only the most
recent one, and errors when no disabled cart exists. -/
def enableCart (email : String) (st : Db) : EnableResult × Db :=
  if st.carts.any (fun c => c.userEmail == email && !c.enabled) then
    (.ok, { st with carts := st.carts.map (fun c =>
      if c.userEmail == email && !c.enabled then { c with enabled := true } else c) })
  else (.noDisabledCart, st)

/-- The stock column of the (first) record row with the given id, 0 if absent. -/
def stockOf (st : Db) (recordId : Nat) : Int :=
  match findRecord st recordId with
  | some r => r.stock
  | none => 0

/-- The sum of the cart-line amounts holding the given record, across all carts:
the active reservations of the item. -/
def reservedFor (st : Db) (recordId : Nat) : Int :=
  ((st.cartDetails.filter (fun d => d.recordId == recordId)).map (fun d => d.amount)).sum

/-- The `TotalPrice` of the (first) cart row with the given id, 0 if absent. -/
def cartTotalOf (st : Db) (cartId : Nat) : Int :=
  match st.carts.find? (fun c => c.idCart == cartId) with
  | some c => c.totalPrice
  | none => 0

/-- The user's carts with `Enabled = true`. -/
def activeCartsOf (st : Db) (email : String) : List CartRow :=
  st.carts.filter (fun c => c.userEmail == email && c.enabled)

/-- All carts belonging to the user. -/
def cartsOf (st : Db) (email : String) : List CartRow :=
  st.carts.filter (fun c => c.userEmail == email)

/-- Well-formedness of the `CartDetails` table: primary keys are distinct and
below the auto-increment counter (what PostgreSQL's serial column provides). -/
def WfDetails (st : Db) : Prop :=
  (st.cartDetails.map (fun d => d.idCartDetail)).Nodup ∧
  ∀ d ∈ st.cartDetails, d.idCartDetail < st.nextCartDetailId

/-- Well-formedness of the `Carts` table: primary keys are distinct. -/
def WfCartIds (st : Db) : Prop :=
  (st.carts.map (fun c => c.idCart)).Nodup

/-- Referential freshness: every cart line references an already-allocated
cart id (so a freshly created cart has no lines). -/
def WfCartRefs (st : Db) : Prop :=
  ∀ d ∈ st.cartDetails, d.cartId < st.nextCartId

/-- At most one cart line per (cart, item) pair — the source's intended
uniqueness of `(CartId, RecordId)`. -/
def WfOnePerPair (st : Db) : Prop :=
  st.cartDetails.Pairwise (fun x y => ¬(x.cartId = y.cartId ∧ x.recordId = y.recordId))

/-- The single-active-cart invariant: no two `Enabled` cart rows share an
owning user. -/
def SingleActiveCartInv (st : Db) : Prop :=
  (st.carts.filter (fun c => c.enabled)).Pairwise (fun a b => a.userEmail ≠ b.userEmail)

instance (st : Db) : Decidable (WfDetails st) := by
  unfold WfDetails
  infer_instance

instance (st : Db) : Decidable (WfCartIds st) := by
  unfold WfCartIds
  infer_instance

instance (st : Db) : Decidable (WfCartRefs st) := by
  unfold WfCartRefs
  infer_instance

instance (st : Db) : Decidable (WfOnePerPair st) := by
  unfold WfOnePerPair
  infer_instance

instance (st : Db) : Decidable (SingleActiveCartInv st) := by
  unfold SingleActiveCartInv
  infer_instance

/-- One cart-mutating call, for sequences of `addItem`/`removeItem`. -/
inductive CartOp where
  | add (email : String) (recordId : Nat) (amount : Int)
  | remove (email : String) (recordId : Nat) (amount : Int)
  deriving DecidableEq, Repr

/-- Applies one operation, keeping the committed state only when the
operation succeeded (returned its `ok` response). -/
def applyCartOp (st : Db) (op : CartOp) : Option Db :=
  match op with
  | .add e r a =>
    match addToCart e r a st with
    | (.ok _ _, st') => some st'
    | _ => none
  | .remove e r a =>
    let o := removeFromCart e r a st
    match o.result with
    | .ok _ => some o.db
    | _ => none

/-- Runs a sequence of cart operations, all of which must succeed. -/
def runCartOps (st : Db) (ops : List CartOp) : Option Db :=
  match ops with
  | [] => some st
  | op :: rest =>
    match applyCartOp st op with
    | none => none
    | some st' => runCartOps st' rest

/-- One operation of the whole engine, with its fault parameters. -/
inductive SysOp where
  | add (email : String) (recordId : Nat) (amount : Int)
  | remove (email : String) (recordId : Nat) (amount : Int)
  | convert (email : String) (readFails : Bool) (fault : Option Nat)
  | disable (email : String) (readFails : Bool) (fault : Option DisableFault)
  | enable (email : String)
  deriving DecidableEq, Repr

/-- The committed state after one engine operation, whatever its response. -/
def applySysOp (st : Db) (op : SysOp) : Db :=
  match op with
  | .add e r a => (addToCart e r a st).2
  | .remove e r a => (removeFromCart e r a st).db
  | .convert e rf f => (createOrderFromCart e st rf f).2
  | .disable e rf f => (disableCart e st rf f).2
  | .enable e => (enableCart e st).2

/-- The sum of the amounts of the lines holding record `i` in a detail list. -/
def amountsFor (ds : List CartDetailRow) (i : Nat) : Int :=
  ((ds.filter (fun d => d.recordId == i)).map (fun d => d.amount)).sum

/-- The order-line rows `insertOrderDetails` produces for the given cart
lines, starting at primary key `startId` (used to state its effect). -/
def mkOrderLines (startId orderId : Nat) : List CartDetailRow → List OrderDetailRow
  | [] => []
  | d :: ds => ⟨startId, orderId, d.recordId, d.amount, d.price⟩ :: mkOrderLines (startId + 1) orderId ds

/-- Example state: one record (price 10, stock 5) and an empty active cart
for user `u`. -/
def exSt0 : Db := ⟨[⟨1, 10, 5⟩], [⟨1, "u", 0, true⟩], [], [], [], 2, 1, 1, 1⟩

/-- `exSt0` after a successful `addToCart` of 2 units: stock 3, one line
(amount 2, snapshot price 10), cart total 20. -/
def exStAdded : Db := (addToCart "u" 1 2 exSt0).2

/-- Example state for the enable-cart counterexample: one user with two
disabled carts (and no enabled one). -/
def exStTwoDisabled : Db := ⟨[], [⟨1, "u", 3, false⟩, ⟨2, "u", 4, false⟩], [], [], [], 3, 1, 1, 1⟩

/-- `exSt0` after `addToCart` of 2 units and `removeFromCart` of 1 unit:
stock 4, one line of amount 1, cart total 10. -/
def exStAddRemove : Db :=
  ⟨[⟨1, 10, 4⟩], [⟨1, "u", 10, true⟩], [⟨1, 1, 1, 1, 10⟩], [], [], 2, 2, 1, 1⟩

/-- Example state: one user with a single disabled cart. -/
def exStOneDisabled : Db := ⟨[], [⟨1, "u", 3, false⟩], [], [], [], 2, 1, 1, 1⟩

theorem find_map_pred {α : Type} (f : α → α) (p : α → Bool)
    (hp : ∀ a, p (f a) = p a) (l : List α) :
    (l.map f).find? p = (l.find? p).map f := by
  induction l with
  | nil => rfl
  | cons x xs ih =>
    cases hpx : p x
    · rw [List.map_cons, List.find?_cons_of_neg _ (by simp [hp x, hpx]),
        List.find?_cons_of_neg _ (by simp [hpx]), ih]
    · rw [List.map_cons, List.find?_cons_of_pos _ (by simp [hp x, hpx]),
        List.find?_cons_of_pos _ hpx]
      rfl

theorem map_if_id {α : Type} (q : α → Bool) (g : α → α) (l : List α)
    (h : ∀ a ∈ l, q a = false) :
    l.map (fun a => if q a then g a else a) = l := by
  induction l with
  | nil => rfl
  | cons x xs ih =>
    have hx := h x (List.mem_cons_self x xs)
    simp only [List.map_cons, hx, Bool.false_eq_true, if_false,
      ih (fun a ha => h a (List.mem_cons_of_mem x ha))]

theorem amountsFor_cons (d : CartDetailRow) (ds : List CartDetailRow) (i : Nat) :
    amountsFor (d :: ds) i
      = (if d.recordId == i then d.amount else 0) + amountsFor ds i := by
  cases hdi : (d.recordId == i) <;>
    simp [amountsFor, List.filter_cons, hdi]

theorem amountsFor_append (ds es : List CartDetailRow) (i : Nat) :
    amountsFor (ds ++ es) i = amountsFor ds i + amountsFor es i := by
  simp [amountsFor, List.filter_append]

theorem amountsFor_setAmount (i : Nat) (n : Int) (ds : List CartDetailRow) :
    ∀ d0 : CartDetailRow,
      (ds.map (fun d => d.idCartDetail)).Nodup → d0 ∈ ds →
      amountsFor (ds.map (fun d =>
          if d.idCartDetail == d0.idCartDetail then { d with amount := n } else d)) i
        = amountsFor ds i + (if d0.recordId == i then n - d0.amount else 0) := by
  induction ds with
  | nil => intro d0 _ hmem; cases hmem
  | cons d ds ih =>
    intro d0 hnd hmem
    simp only [List.map_cons, List.nodup_cons] at hnd
    rcases List.mem_cons.mp hmem with rfl | hmem'
    · have htail : ∀ x ∈ ds, (x.idCartDetail == d0.idCartDetail) = false := by
        intro x hx
        have hxne : x.idCartDetail ≠ d0.idCartDetail := by
          intro hc
          exact hnd.1 (hc ▸ List.mem_map_of_mem (fun d => d.idCartDetail) hx)
        simp [hxne]
      rw [List.map_cons, if_pos (by simp), map_if_id _ _ ds htail,
        amountsFor_cons, amountsFor_cons]
      cases hdi : (d0.recordId == i) <;> simp [hdi] <;> ring
    · have hne : (d.idCartDetail == d0.idCartDetail) = false := by
        have hdne : d.idCartDetail ≠ d0.idCartDetail := by
          intro hc
          exact hnd.1 (hc ▸ List.mem_map_of_mem (fun d => d.idCartDetail) hmem')
        simp [hdne]
      rw [List.map_cons, if_neg (by simp [hne]), amountsFor_cons, amountsFor_cons,
        ih d0 hnd.2 hmem']
      ring

theorem amountsFor_delete (i : Nat) (ds : List CartDetailRow) :
    ∀ d0 : CartDetailRow,
      (ds.map (fun d => d.idCartDetail)).Nodup → d0 ∈ ds →
      amountsFor (ds.filter (fun d => !(d.idCartDetail == d0.idCartDetail))) i
        = amountsFor ds i - (if d0.recordId == i then d0.amount else 0) := by
  induction ds with
  | nil => intro d0 _ hmem; cases hmem
  | cons d ds ih =>
    intro d0 hnd hmem
    simp only [List.map_cons, List.nodup_cons] at hnd
    rcases List.mem_cons.mp hmem with rfl | hmem'
    · have htail : ∀ x ∈ ds, (!(x.idCartDetail == d0.idCartDetail)) = true := by
        intro x hx
        have hxne : x.idCartDetail ≠ d0.idCartDetail := by
          intro hc
          exact hnd.1 (hc ▸ List.mem_map_of_mem (fun d => d.idCartDetail) hx)
        simp [hxne]
      rw [List.filter_cons_of_neg (by simp), List.filter_eq_self.mpr htail,
        amountsFor_cons]
      cases hdi : (d0.recordId == i) <;> simp [hdi]
    · have hne : d.idCartDetail ≠ d0.idCartDetail := by
        intro hc
        exact hnd.1 (hc ▸ List.mem_map_of_mem (fun d => d.idCartDetail) hmem')
      rw [List.filter_cons_of_pos (by simp [hne]), amountsFor_cons, amountsFor_cons,
        ih d0 hnd.2 hmem']
      ring

theorem reservedFor_eq_amountsFor (st : Db) (i : Nat) :
    reservedFor st i = amountsFor st.cartDetails i := rfl

theorem ids_map_setAmount (ds : List CartDetailRow) (tid : Nat) (n : Int) :
    (ds.map (fun d => if d.idCartDetail == tid then { d with amount := n } else d)).map
        (fun d => d.idCartDetail)
      = ds.map (fun d => d.idCartDetail) := by
  rw [List.map_map]
  apply List.map_congr_left
  intro d _
  simp only [Function.comp]
  split <;> rfl

theorem wf_setCartDetailAmount (st : Db) (tid : Nat) (n : Int) (h : WfDetails st) :
    WfDetails (setCartDetailAmount st tid n) := by
  obtain ⟨h1, h2⟩ := h
  have hcd : (setCartDetailAmount st tid n).cartDetails
      = st.cartDetails.map (fun x =>
          if x.idCartDetail == tid then { x with amount := n } else x) := rfl
  constructor
  · rw [hcd, ids_map_setAmount]
    exact h1
  · intro d hd
    rw [hcd] at hd
    obtain ⟨d0, hd0, rfl⟩ := List.mem_map.mp hd
    have hn : (setCartDetailAmount st tid n).nextCartDetailId = st.nextCartDetailId := rfl
    rw [hn]
    by_cases hb : (d0.idCartDetail == tid) = true
    · simpa [hb] using h2 d0 hd0
    · simpa [hb] using h2 d0 hd0

theorem wf_deleteCartDetail (st : Db) (tid : Nat) (h : WfDetails st) :
    WfDetails (deleteCartDetail st tid) := by
  obtain ⟨h1, h2⟩ := h
  constructor
  · have hsub : List.Sublist (deleteCartDetail st tid).cartDetails st.cartDetails :=
      List.filter_sublist _
    exact (hsub.map (fun d => d.idCartDetail)).nodup h1
  · intro d hd
    exact h2 d (List.mem_of_mem_filter hd)

theorem wf_insertCartDetail (st : Db) (cid rid : Nat) (a p : Int) (h : WfDetails st) :
    WfDetails (insertCartDetail st cid rid a p) := by
  obtain ⟨h1, h2⟩ := h
  constructor
  · rw [insertCartDetail, List.map_append, List.nodup_append]
    refine ⟨h1, by simp, ?_⟩
    intro x hx
    simp only [List.mem_map] at hx
    obtain ⟨d0, hd0, rfl⟩ := hx
    have := h2 d0 hd0
    simp only [List.map_cons, List.map_nil, List.mem_singleton]
    omega
  · intro d hd
    rw [insertCartDetail, List.mem_append] at hd
    rcases hd with hd | hd
    · have := h2 d hd
      simp only [insertCartDetail]
      omega
    · simp only [List.mem_singleton] at hd
      subst hd
      simp [insertCartDetail]

theorem findRecord_updateRecordStock (st : Db) (r i : Nat) (d : Int) :
    findRecord (updateRecordStock st r d) i
      = (findRecord st i).map (fun a =>
          if a.idRecord == r then { a with stock := a.stock + d } else a) := by
  unfold findRecord updateRecordStock
  exact find_map_pred _ _ (fun a => by by_cases h : (a.idRecord == r) = true <;> simp [h]) _

theorem findRecord_updateRecordPrice (st : Db) (r i : Nat) (p : Int) :
    findRecord (updateRecordPrice st r p) i
      = (findRecord st i).map (fun a =>
          if a.idRecord == r then { a with price := p } else a) := by
  unfold findRecord updateRecordPrice
  exact find_map_pred _ _ (fun a => by by_cases h : (a.idRecord == r) = true <;> simp [h]) _

theorem findRecord_idRecord {st : Db} {i : Nat} {a : RecordRow}
    (h : findRecord st i = some a) : a.idRecord = i := by
  have h' : st.records.find? (fun r => r.idRecord == i) = some a := h
  simpa using List.find?_some h'

theorem stockOf_updateRecordStock_self (st : Db) (r : Nat) (d : Int) (rec0 : RecordRow)
    (h : findRecord st r = some rec0) :
    stockOf (updateRecordStock st r d) r = rec0.stock + d := by
  have hpr : rec0.idRecord = r := findRecord_idRecord h
  rw [stockOf, findRecord_updateRecordStock, h]
  simp [hpr]

theorem stockOf_updateRecordStock_ne (st : Db) (r i : Nat) (d : Int) (h : i ≠ r) :
    stockOf (updateRecordStock st r d) i = stockOf st i := by
  rw [stockOf, findRecord_updateRecordStock]
  cases hf : findRecord st i with
  | none => simp [stockOf, hf]
  | some a =>
    have hai : a.idRecord = i := findRecord_idRecord hf
    simp [stockOf, hf, hai, h]

theorem stockOf_congr {st st' : Db} (h : st'.records = st.records) (i : Nat) :
    stockOf st' i = stockOf st i := by
  unfold stockOf findRecord
  rw [h]

theorem findRecord_congr {st st' : Db} (h : st'.records = st.records) (i : Nat) :
    findRecord st' i = findRecord st i := by
  unfold findRecord
  rw [h]

theorem reservedFor_congr {st st' : Db} (h : st'.cartDetails = st.cartDetails) (i : Nat) :
    reservedFor st' i = reservedFor st i := by
  unfold reservedFor
  rw [h]

theorem wfDetails_congr {st st' : Db} (h1 : st'.cartDetails = st.cartDetails)
    (h2 : st'.nextCartDetailId = st.nextCartDetailId) (h : WfDetails st) : WfDetails st' := by
  unfold WfDetails at *
  rw [h1, h2]
  exact h

theorem insertCartOnConflict_fields (st : Db) (e : String) :
    (insertCartOnConflict st e).2.records = st.records ∧
    (insertCartOnConflict st e).2.cartDetails = st.cartDetails ∧
    (insertCartOnConflict st e).2.nextCartDetailId = st.nextCartDetailId := by
  unfold insertCartOnConflict
  cases st.carts.find? (fun c => c.userEmail == e) <;> simp

theorem createCart_fields (st : Db) (e : String) :
    (createCart st e).2.records = st.records ∧
    (createCart st e).2.cartDetails = st.cartDetails ∧
    (createCart st e).2.nextCartDetailId = st.nextCartDetailId := by
  unfold createCart
  cases findEnabledCart st e <;> simp

theorem findCartDetail_spec {st : Db} {c r : Nat} {d : CartDetailRow}
    (h : findCartDetail st c r = some d) :
    d ∈ st.cartDetails ∧ d.cartId = c ∧ d.recordId = r := by
  have h' : st.cartDetails.find? (fun x => x.cartId == c && x.recordId == r) = some d := h
  have hp := List.find?_some h'
  simp only [Bool.and_eq_true, beq_iff_eq] at hp
  exact ⟨List.mem_of_find?_eq_some h', hp.1, hp.2⟩

theorem findEnabledCart_spec {st : Db} {e : String} {c : CartRow}
    (h : findEnabledCart st e = some c) :
    c ∈ st.carts ∧ c.userEmail = e ∧ c.enabled = true := by
  have h' : st.carts.find? (fun x => x.userEmail == e && x.enabled) = some c := h
  have hp := List.find?_some h'
  simp only [Bool.and_eq_true, beq_iff_eq] at hp
  exact ⟨List.mem_of_find?_eq_some h', hp.1, hp.2⟩

theorem stockOf_eq_of_findRecord {st : Db} {i : Nat} {rec0 : RecordRow}
    (h : findRecord st i = some rec0) : stockOf st i = rec0.stock := by
  unfold stockOf
  rw [h]

/-- Effect of the line-mutation phase of `addToCart` on the details table:
well-formedness is preserved, records are untouched, and the reservation
total of record `r` grows by exactly `a`. -/
theorem addMutationPhase_effects (st1 : Db) (cid r : Nat) (a p0 : Int)
    (hwf1 : WfDetails st1) :
    WfDetails (addMutationPhase st1 cid r a p0) ∧
    (addMutationPhase st1 cid r a p0).records = st1.records ∧
    ∀ i, reservedFor (addMutationPhase st1 cid r a p0) i
          = reservedFor st1 i + (if r = i then a else 0) := by
  unfold addMutationPhase
  cases hd : findCartDetail st1 cid r with
  | some d =>
    obtain ⟨hmem, _, hrid⟩ := findCartDetail_spec hd
    refine ⟨wf_setCartDetailAmount st1 _ _ hwf1, rfl, ?_⟩
    intro i
    have hcd : (setCartDetailAmount st1 d.idCartDetail (d.amount + a)).cartDetails
        = st1.cartDetails.map (fun x =>
            if x.idCartDetail == d.idCartDetail then { x with amount := d.amount + a } else x) := rfl
    rw [reservedFor_eq_amountsFor, reservedFor_eq_amountsFor, hcd,
      amountsFor_setAmount i (d.amount + a) st1.cartDetails d hwf1.1 hmem, hrid]
    by_cases hri : r = i <;> simp [hri]
  | none =>
    refine ⟨wf_insertCartDetail st1 cid r a p0 hwf1, rfl, ?_⟩
    intro i
    have hcd : (insertCartDetail st1 cid r a p0).cartDetails
        = st1.cartDetails ++ [⟨st1.nextCartDetailId, cid, r, a, p0⟩] := rfl
    rw [reservedFor_eq_amountsFor, reservedFor_eq_amountsFor, hcd, amountsFor_append]
    by_cases hri : r = i <;> simp [amountsFor, hri]

/-- Effect of the line-mutation phase of `removeFromCart` (delete the line or
lower its amount): well-formedness is preserved, records are untouched, and
the reservation total of the line's record shrinks by exactly `a`. -/
theorem removeMutationPhase_effects (st1 : Db) (d : CartDetailRow) (r : Nat) (a : Int)
    (hwf1 : WfDetails st1) (hmem : d ∈ st1.cartDetails) (hrid : d.recordId = r) :
    WfDetails (removeMutationPhase st1 d.idCartDetail (d.amount - a)) ∧
    (removeMutationPhase st1 d.idCartDetail (d.amount - a)).records = st1.records ∧
    ∀ i, reservedFor (removeMutationPhase st1 d.idCartDetail (d.amount - a)) i
          = reservedFor st1 i - (if r = i then a else 0) := by
  unfold removeMutationPhase
  by_cases hz : d.amount - a = 0
  · rw [if_pos hz]
    refine ⟨wf_deleteCartDetail st1 _ hwf1, rfl, ?_⟩
    intro i
    have hcd : (deleteCartDetail st1 d.idCartDetail).cartDetails
        = st1.cartDetails.filter (fun x => !(x.idCartDetail == d.idCartDetail)) := rfl
    rw [reservedFor_eq_amountsFor, reservedFor_eq_amountsFor, hcd,
      amountsFor_delete i st1.cartDetails d hwf1.1 hmem, hrid]
    have ha : d.amount = a := by omega
    by_cases hri : r = i <;> simp [hri, ha]
  · rw [if_neg hz]
    refine ⟨wf_setCartDetailAmount st1 _ _ hwf1, rfl, ?_⟩
    intro i
    have hcd : (setCartDetailAmount st1 d.idCartDetail (d.amount - a)).cartDetails
        = st1.cartDetails.map (fun x =>
            if x.idCartDetail == d.idCartDetail then { x with amount := d.amount - a } else x) := rfl
    rw [reservedFor_eq_amountsFor, reservedFor_eq_amountsFor, hcd,
      amountsFor_setAmount i (d.amount - a) st1.cartDetails d hwf1.1 hmem, hrid]
    by_cases hri : r = i <;> simp [hri] <;> ring

/-- A successful `addToCart` preserves detail well-formedness and record
existence, conserves `stock + reservations` for every record, and keeps
stock non-negative. -/
theorem addToCart_ok_invariant
    {e : String} {r : Nat} {a : Int} {st st' : Db} {s : Int} {cid : Nat}
    (hwf : WfDetails st)
    (h : addToCart e r a st = (.ok s cid, st')) :
    WfDetails st' ∧
    (∀ i, (findRecord st' i).isSome = (findRecord st i).isSome) ∧
    (∀ i, stockOf st' i + reservedFor st' i = stockOf st i + reservedFor st i) ∧
    (∀ i, 0 ≤ stockOf st i → 0 ≤ stockOf st' i) := by
  unfold addToCart at h
  split at h
  · exact absurd h (by simp)
  next hpos =>
  cases hrec : findRecord st r with
  | none => rw [hrec] at h; exact absurd h (by simp)
  | some rec0 =>
    rw [hrec] at h
    simp only at h
    split at h
    · exact absurd h (by simp)
    next hstock =>
    have hsa : a ≤ rec0.stock := by omega
    -- the cart-resolution step changes only the carts table
    have hfields : ∀ c1 : CartRow × Db,
        c1 = (match findEnabledCart st e with
              | some c => (c, st)
              | none => insertCartOnConflict st e) →
        c1.2.records = st.records ∧ c1.2.cartDetails = st.cartDetails ∧
        c1.2.nextCartDetailId = st.nextCartDetailId := by
      intro c1 hc1
      cases hE : findEnabledCart st e with
      | some c => rw [hE] at hc1; subst hc1; exact ⟨rfl, rfl, rfl⟩
      | none => rw [hE] at hc1; subst hc1; exact insertCartOnConflict_fields st e
    simp only [Prod.mk.injEq, AddResult.ok.injEq] at h
    obtain ⟨⟨hs, hcid⟩, hst'⟩ := h
    obtain ⟨hrecs1, hdets1, hnext1⟩ := hfields _ rfl
    set resolved := (match findEnabledCart st e with
              | some c => (c, st)
              | none => insertCartOnConflict st e) with hresolved
    have hwf1 : WfDetails resolved.2 := wfDetails_congr hdets1 hnext1 hwf
    obtain ⟨hwf2, hrecs2, hres2⟩ :=
      addMutationPhase_effects resolved.2 resolved.1.idCart r a rec0.price hwf1
    have hrec2 : findRecord (addMutationPhase resolved.2 resolved.1.idCart r a rec0.price) r
        = some rec0 := by
      rw [findRecord_congr hrecs2, findRecord_congr hrecs1, hrec]
    set st2 := addMutationPhase resolved.2 resolved.1.idCart r a rec0.price with hst2
    set st3 := updateRecordStock st2 r (-a) with hst3
    have hdets3 : st3.cartDetails = st2.cartDetails := rfl
    have hnext3 : st3.nextCartDetailId = st2.nextCartDetailId := rfl
    have hrecs4 : st'.records = st3.records := by rw [← hst']; rfl
    have hdets4 : st'.cartDetails = st3.cartDetails := by rw [← hst']; rfl
    have hnext4 : st'.nextCartDetailId = st3.nextCartDetailId := by rw [← hst']; rfl
    refine ⟨?_, ?_, ?_, ?_⟩
    · exact wfDetails_congr (hdets4.trans hdets3) (hnext4.trans hnext3) hwf2
    · intro i
      rw [findRecord_congr hrecs4, hst3, findRecord_updateRecordStock,
        findRecord_congr hrecs2, findRecord_congr hrecs1]
      simp
    · intro i
      have hresv : reservedFor st' i = reservedFor st i + (if r = i then a else 0) := by
        rw [reservedFor_congr (hdets4.trans hdets3), hres2, reservedFor_congr hdets1]
      by_cases hri : r = i
      · subst hri
        have hstock' : stockOf st' r = rec0.stock + (-a) := by
          rw [stockOf_congr hrecs4, hst3, stockOf_updateRecordStock_self st2 r (-a) rec0 hrec2]
        have hst0 : stockOf st r = rec0.stock := stockOf_eq_of_findRecord hrec
        rw [hresv, hstock', hst0]
        simp
        ring
      · have hstock' : stockOf st' i = stockOf st i := by
          rw [stockOf_congr hrecs4, hst3, stockOf_updateRecordStock_ne st2 r i (-a) (Ne.symm hri),
            stockOf_congr hrecs2, stockOf_congr hrecs1]
        rw [hresv, hstock']
        simp [hri]
    · intro i hi
      by_cases hri : r = i
      · subst hri
        have hstock' : stockOf st' r = rec0.stock + (-a) := by
          rw [stockOf_congr hrecs4, hst3, stockOf_updateRecordStock_self st2 r (-a) rec0 hrec2]
        rw [hstock']
        omega
      · have hstock' : stockOf st' i = stockOf st i := by
          rw [stockOf_congr hrecs4, hst3, stockOf_updateRecordStock_ne st2 r i (-a) (Ne.symm hri),
            stockOf_congr hrecs2, stockOf_congr hrecs1]
        rw [hstock']
        exact hi

theorem stockOf_eq_zero_of_none {st : Db} {i : Nat}
    (h : findRecord st i = none) : stockOf st i = 0 := by
  unfold stockOf
  rw [h]

/-- A successful `removeFromCart` preserves detail well-formedness and
record existence, conserves `stock + reservations` for every existing
record, and keeps stock non-negative. -/
theorem removeFromCart_ok_invariant
    {e : String} {r : Nat} {a : Int} {st st' : Db} {rem : Int} {created : Bool}
    (hwf : WfDetails st)
    (h : removeFromCart e r a st = ⟨.ok rem, st', created⟩) :
    WfDetails st' ∧
    (∀ i, (findRecord st' i).isSome = (findRecord st i).isSome) ∧
    (∀ i, (findRecord st i).isSome = true →
      stockOf st' i + reservedFor st' i = stockOf st i + reservedFor st i) ∧
    (∀ i, 0 ≤ stockOf st i → 0 ≤ stockOf st' i) := by
  unfold removeFromCart at h
  split at h
  · exact absurd h (by simp)
  next hpos =>
  have hfields : ∀ c1 : CartRow × Db × Bool,
      c1 = (match findEnabledCart st e with
            | some c => (c, st, false)
            | none =>
              let created := createCart st e
              (created.1, created.2, true)) →
      c1.2.1.records = st.records ∧ c1.2.1.cartDetails = st.cartDetails ∧
      c1.2.1.nextCartDetailId = st.nextCartDetailId := by
    intro c1 hc1
    cases hE : findEnabledCart st e with
    | some c => rw [hE] at hc1; subst hc1; exact ⟨rfl, rfl, rfl⟩
    | none => rw [hE] at hc1; subst hc1; exact createCart_fields st e
  obtain ⟨hrecs1, hdets1, hnext1⟩ := hfields _ rfl
  set resolved := (match findEnabledCart st e with
            | some c => (c, st, false)
            | none =>
              let created := createCart st e
              (created.1, created.2, true)) with hresolved
  simp only [] at h
  cases hd : findCartDetail resolved.2.1 resolved.1.idCart r with
  | none => rw [hd] at h; exact absurd h (by simp)
  | some d =>
    rw [hd] at h
    simp only at h
    split at h
    · exact absurd h (by simp)
    next hcur =>
    simp only [RemoveOutcome.mk.injEq, RemoveResult.ok.injEq] at h
    obtain ⟨hrem, hst', hcreated⟩ := h
    obtain ⟨hmem1, _, hrid⟩ := findCartDetail_spec hd
    have hwf1 : WfDetails resolved.2.1 := wfDetails_congr hdets1 hnext1 hwf
    obtain ⟨hwf2, hrecs2, hres2⟩ :=
      removeMutationPhase_effects resolved.2.1 d r a hwf1 hmem1 hrid
    set st2 := removeMutationPhase resolved.2.1 d.idCartDetail (d.amount - a) with hst2
    set st3 := updateRecordStock st2 r a with hst3
    have hdets3 : st3.cartDetails = st2.cartDetails := rfl
    have hnext3 : st3.nextCartDetailId = st2.nextCartDetailId := rfl
    have hrecs4 : st'.records = st3.records := by rw [← hst']; rfl
    have hdets4 : st'.cartDetails = st3.cartDetails := by rw [← hst']; rfl
    have hnext4 : st'.nextCartDetailId = st3.nextCartDetailId := by rw [← hst']; rfl
    have hrec2eq : findRecord st2 r = findRecord st r := by
      rw [findRecord_congr hrecs2, findRecord_congr hrecs1]
    refine ⟨?_, ?_, ?_, ?_⟩
    · exact wfDetails_congr (hdets4.trans hdets3) (hnext4.trans hnext3) hwf2
    · intro i
      rw [findRecord_congr hrecs4, hst3, findRecord_updateRecordStock,
        findRecord_congr hrecs2, findRecord_congr hrecs1]
      simp
    · intro i hsome
      have hresv : reservedFor st' i = reservedFor st i - (if r = i then a else 0) := by
        rw [reservedFor_congr (hdets4.trans hdets3), hres2, reservedFor_congr hdets1]
      by_cases hri : r = i
      · subst hri
        obtain ⟨rec1, hrec1⟩ := Option.isSome_iff_exists.mp hsome
        have hrec2 : findRecord st2 r = some rec1 := by rw [hrec2eq, hrec1]
        have hstock' : stockOf st' r = rec1.stock + a := by
          rw [stockOf_congr hrecs4, hst3, stockOf_updateRecordStock_self st2 r a rec1 hrec2]
        have hst0 : stockOf st r = rec1.stock := stockOf_eq_of_findRecord hrec1
        rw [hresv, hstock', hst0]
        simp
      · have hstock' : stockOf st' i = stockOf st i := by
          rw [stockOf_congr hrecs4, hst3, stockOf_updateRecordStock_ne st2 r i a (Ne.symm hri),
            stockOf_congr hrecs2, stockOf_congr hrecs1]
        rw [hresv, hstock']
        simp [hri]
    · intro i hi
      by_cases hri : r = i
      · subst hri
        cases hrec1 : findRecord st r with
        | none =>
          have hrec2 : findRecord st2 r = none := by rw [hrec2eq, hrec1]
          have hrec3 : findRecord st' r = none := by
            rw [findRecord_congr hrecs4, hst3, findRecord_updateRecordStock, hrec2]
            rfl
          rw [stockOf_eq_zero_of_none hrec3]
        | some rec1 =>
          have hrec2 : findRecord st2 r = some rec1 := by rw [hrec2eq, hrec1]
          have hstock' : stockOf st' r = rec1.stock + a := by
            rw [stockOf_congr hrecs4, hst3, stockOf_updateRecordStock_self st2 r a rec1 hrec2]
          have hst0 : stockOf st r = rec1.stock := stockOf_eq_of_findRecord hrec1
          rw [hstock']
          rw [hst0] at hi
          omega
      · have hstock' : stockOf st' i = stockOf st i := by
          rw [stockOf_congr hrecs4, hst3, stockOf_updateRecordStock_ne st2 r i a (Ne.symm hri),
            stockOf_congr hrecs2, stockOf_congr hrecs1]
        rw [hstock']
        exact hi

theorem runCartOps_append (l1 l2 : List CartOp) :
    ∀ st : Db, runCartOps st (l1 ++ l2)
      = match runCartOps st l1 with
        | none => none
        | some s => runCartOps s l2 := by
  induction l1 with
  | nil => intro st; rfl
  | cons op rest ih =>
    intro st
    show (match applyCartOp st op with
          | none => none
          | some st' => runCartOps st' (rest ++ l2))
        = match (match applyCartOp st op with
                 | none => none
                 | some st' => runCartOps st' rest) with
          | none => none
          | some s => runCartOps s l2
    cases applyCartOp st op with
    | none => rfl
    | some st' => exact ih st'

/-- The inductive core of stock conservation: a fully successful run
preserves well-formedness, record existence, the conserved quantity and
stock non-negativity. -/
theorem runCartOps_invariant (ops : List CartOp) :
    ∀ (st0 st1 : Db) (i : Nat) (S : Int),
      WfDetails st0 →
      (findRecord st0 i).isSome = true →
      0 ≤ stockOf st0 i →
      stockOf st0 i + reservedFor st0 i = S →
      runCartOps st0 ops = some st1 →
      WfDetails st1 ∧ (findRecord st1 i).isSome = true ∧
      0 ≤ stockOf st1 i ∧ stockOf st1 i + reservedFor st1 i = S := by
  induction ops with
  | nil =>
    intro st0 st1 i S hwf hsome h0 hS hrun
    have : st0 = st1 := by simpa [runCartOps] using hrun
    subst this
    exact ⟨hwf, hsome, h0, hS⟩
  | cons op rest ih =>
    intro st0 st1 i S hwf hsome h0 hS hrun
    unfold runCartOps at hrun
    cases hap : applyCartOp st0 op with
    | none => rw [hap] at hrun; exact absurd hrun (by simp)
    | some stm =>
      rw [hap] at hrun
      have hstep : WfDetails stm ∧ (findRecord stm i).isSome = true ∧
          0 ≤ stockOf stm i ∧ stockOf stm i + reservedFor stm i = S := by
        cases op with
        | add e r a =>
          unfold applyCartOp at hap
          simp only [] at hap
          rcases hadd : addToCart e r a st0 with ⟨res, st'⟩
          rw [hadd] at hap
          cases res with
          | ok s cid =>
            have hst' : st' = stm := by simpa using hap
            subst hst'
            obtain ⟨hw, hex, hcons, hnn⟩ := addToCart_ok_invariant hwf hadd
            exact ⟨hw, (hex i).trans hsome, hnn i h0, by rw [hcons i, hS]⟩
          | invalidAmount => exact absurd hap (by simp)
          | recordNotFound => exact absurd hap (by simp)
          | insufficientStock av => exact absurd hap (by simp)
        | remove e r a =>
          unfold applyCartOp at hap
          simp only [] at hap
          rcases hrem : removeFromCart e r a st0 with ⟨res, st', created⟩
          rw [hrem] at hap
          simp only [] at hap
          cases res with
          | ok rem =>
            have hst' : st' = stm := by simpa using hap
            subst hst'
            obtain ⟨hw, hex, hcons, hnn⟩ := removeFromCart_ok_invariant hwf hrem
            exact ⟨hw, (hex i).trans hsome, hnn i h0, by rw [hcons i hsome, hS]⟩
          | invalidAmount => exact absurd hap (by simp)
          | itemNotFound => exact absurd hap (by simp)
          | invalidRemoval cur => exact absurd hap (by simp)
      exact ih stm st1 i S hstep.1 hstep.2.1 hstep.2.2.1 hstep.2.2.2 hrun

/-- C1: Stock conservation.  For every sequence of successful
`addItem`/`removeItem` operations on inventory item `i` starting from a
well-formed state whose stock-plus-reservations total is `S`, after every
operation of the sequence (i.e. at every prefix of the run) the item's stock
plus the sum of the cart-line amounts holding the item equals `S`, and the
stock is never negative (`addToCart` refuses with `insufficientStock` rather
than driving stock below zero, which is what makes the run's steps succeed). -/
theorem stock_conservation (ops : List CartOp) (st0 st1 : Db) (i : Nat) (S : Int)
    (hwf : WfDetails st0)
    (hsome : (findRecord st0 i).isSome = true)
    (h0 : 0 ≤ stockOf st0 i)
    (hS : stockOf st0 i + reservedFor st0 i = S)
    (hrun : runCartOps st0 ops = some st1) :
    ∀ pre suf, ops = pre ++ suf →
      ∃ stm, runCartOps st0 pre = some stm ∧
        stockOf stm i + reservedFor stm i = S ∧ 0 ≤ stockOf stm i := by
  intro pre suf hsplit
  subst hsplit
  rw [runCartOps_append] at hrun
  cases hpre : runCartOps st0 pre with
  | none => rw [hpre] at hrun; exact absurd hrun (by simp)
  | some stm =>
    obtain ⟨_, _, hnn, hcons⟩ := runCartOps_invariant pre st0 stm i S hwf hsome h0 hS hpre
    exact ⟨stm, rfl, hcons, hnn⟩

/-- Witness for C1 at a concrete run: stock 5, add 2 then remove 1; after the
full run stock 4 plus reservation 1 equals 5. -/
theorem stock_conservation_witness :
    ∃ stm, runCartOps exSt0 [CartOp.add "u" 1 2, CartOp.remove "u" 1 1] = some stm ∧
      stockOf stm 1 + reservedFor stm 1 = 5 ∧ 0 ≤ stockOf stm 1 :=
  stock_conservation [CartOp.add "u" 1 2, CartOp.remove "u" 1 1] exSt0 exStAddRemove 1 5
    (by decide) (by decide) (by decide) (by decide) (by decide)
    [CartOp.add "u" 1 2, CartOp.remove "u" 1 1] [] (by decide)

/-- Explicit form of a successful `addToCart` when an active cart exists. -/
theorem addToCart_found_eq (e : String) (r : Nat) (a : Int) (st : Db)
    (cart : CartRow) (rec0 : RecordRow)
    (hpos : 0 < a)
    (hc : findEnabledCart st e = some cart)
    (hr : findRecord st r = some rec0)
    (hstk : a ≤ rec0.stock) :
    addToCart e r a st
      = (.ok (rec0.stock - a) cart.idCart,
         updateCartTotalPrice
           (updateRecordStock (addMutationPhase st cart.idCart r a rec0.price) r (-a))
           cart.idCart (rec0.price * a)) := by
  unfold addToCart
  rw [if_neg (show ¬ a ≤ 0 by omega), hr]
  simp only []
  rw [if_neg (show ¬ rec0.stock < a by omega)]
  simp only [hc]

/-- Explicit form of a successful `removeFromCart` when the cart line exists
and holds at least the requested amount. -/
theorem removeFromCart_found_eq (e : String) (r : Nat) (a : Int) (st : Db)
    (cart : CartRow) (d : CartDetailRow)
    (hpos : 0 < a)
    (hc : findEnabledCart st e = some cart)
    (hd : findCartDetail st cart.idCart r = some d)
    (hle : a ≤ d.amount) :
    removeFromCart e r a st
      = ⟨.ok (d.amount - a),
         updateCartTotalPrice
           (updateRecordStock (removeMutationPhase st d.idCartDetail (d.amount - a)) r a)
           cart.idCart (-(d.price * a)), false⟩ := by
  unfold removeFromCart
  rw [if_neg (show ¬ a ≤ 0 by omega)]
  simp only [hc, hd]
  rw [if_neg (show ¬ d.amount < a by omega)]

/-- Explicit form of the over-removal failure of `removeFromCart`. -/
theorem removeFromCart_over_eq (e : String) (r : Nat) (a : Int) (st : Db)
    (cart : CartRow) (d : CartDetailRow)
    (hpos : 0 < a)
    (hc : findEnabledCart st e = some cart)
    (hd : findCartDetail st cart.idCart r = some d)
    (hgt : d.amount < a) :
    removeFromCart e r a st = ⟨.invalidRemoval d.amount, st, false⟩ := by
  unfold removeFromCart
  rw [if_neg (show ¬ a ≤ 0 by omega)]
  simp only [hc, hd]
  rw [if_pos hgt]

/-- C8: Over-removal is rejected, not clamped.  When the cart line for
(cart, item) exists and the requested amount exceeds the line's amount,
`removeFromCart` fails with `invalidRemoval` carrying the line's current
amount and the whole state — the item's stock, the cart line and the cart's
`totalPrice` — is left unchanged; removing exactly `line.amount` succeeds
(reporting 0 remaining) and deletes the line. -/
theorem over_removal_rejected (e : String) (r : Nat) (a : Int) (st : Db)
    (cart : CartRow) (d : CartDetailRow)
    (hpos : 0 < a)
    (hc : findEnabledCart st e = some cart)
    (hd : findCartDetail st cart.idCart r = some d)
    (hwfp : WfOnePerPair st) :
    (d.amount < a → removeFromCart e r a st = ⟨.invalidRemoval d.amount, st, false⟩) ∧
    (a = d.amount →
      (removeFromCart e r a st).result = .ok 0 ∧
      findCartDetail (removeFromCart e r a st).db cart.idCart r = none) := by
  constructor
  · intro hgt
    exact removeFromCart_over_eq e r a st cart d hpos hc hd hgt
  · intro heqa
    have hzero : d.amount - a = 0 := by omega
    rw [removeFromCart_found_eq e r a st cart d hpos hc hd (by omega)]
    refine ⟨by simp [hzero], ?_⟩
    have hdet : (updateCartTotalPrice
        (updateRecordStock (removeMutationPhase st d.idCartDetail (d.amount - a)) r a)
        cart.idCart (-(d.price * a))).cartDetails
          = st.cartDetails.filter (fun x => !(x.idCartDetail == d.idCartDetail)) := by
      rw [hzero]
      unfold removeMutationPhase
      rw [if_pos rfl]
      rfl
    show findCartDetail _ cart.idCart r = none
    unfold findCartDetail
    rw [hdet, List.find?_eq_none]
    intro x hx
    obtain ⟨hmem, hdc, hdr⟩ := findCartDetail_spec hd
    have hxmem : x ∈ st.cartDetails := List.mem_of_mem_filter hx
    have hxid : (x.idCartDetail == d.idCartDetail) = false := by
      have := List.of_mem_filter hx
      simpa using this
    have hxd : x ≠ d := by
      intro hcontra
      rw [hcontra] at hxid
      simp at hxid
    have hsymm : Symmetric (fun x y : CartDetailRow =>
        ¬(x.cartId = y.cartId ∧ x.recordId = y.recordId)) := by
      intro p q hpq hqp
      exact hpq ⟨hqp.1.symm, hqp.2.symm⟩
    have hR := hwfp.forall hsymm hxmem hmem hxd
    intro hpx
    simp only [Bool.and_eq_true, beq_iff_eq] at hpx
    exact hR ⟨hpx.1.trans hdc.symm, hpx.2.trans hdr.symm⟩

/-- Witness for C8: removing 5 units from a line holding 2 fails with
`invalidRemoval 2` and leaves the state untouched. -/
theorem over_removal_rejected_witness :
    removeFromCart "u" 1 5 exStAdded = ⟨.invalidRemoval 2, exStAdded, false⟩ :=
  (over_removal_rejected "u" 1 5 exStAdded ⟨1, "u", 20, true⟩ ⟨1, 1, 1, 2, 10⟩
      (by decide) (by decide) (by decide) (by decide)).1 (by decide)

theorem findEnabledCart_congr {st st' : Db} (h : st'.carts = st.carts) (e : String) :
    findEnabledCart st' e = findEnabledCart st e := by
  unfold findEnabledCart
  rw [h]

theorem findEnabledCart_updateCartTotalPrice (st : Db) (cid : Nat) (dl : Int) (e : String) :
    findEnabledCart (updateCartTotalPrice st cid dl) e
      = (findEnabledCart st e).map (fun c =>
          if c.idCart == cid then { c with totalPrice := c.totalPrice + dl } else c) := by
  unfold findEnabledCart updateCartTotalPrice
  exact find_map_pred _ _ (fun c => by by_cases h : (c.idCart == cid) = true <;> simp [h]) _

/-- C9: Idempotent merge.  Adding the same item twice (amounts `a1` then
`a2`) to a cart that does not yet hold it — even with a catalog price change
to `p2` in between — produces exactly one cart line for the (cart, item)
pair, holding `a1 + a2` units at the price snapshot of the FIRST add. -/
theorem idempotent_merge (e : String) (r : Nat) (a1 a2 p2 : Int) (st : Db)
    (cart : CartRow) (rec0 : RecordRow)
    (hwf : WfDetails st)
    (hc : findEnabledCart st e = some cart)
    (hr : findRecord st r = some rec0)
    (hnone : findCartDetail st cart.idCart r = none)
    (h1 : 0 < a1) (hs1 : a1 ≤ rec0.stock)
    (h2 : 0 < a2) (hs2 : a2 ≤ rec0.stock - a1) :
    ((addToCart e r a2 (updateRecordPrice (addToCart e r a1 st).2 r p2)).2.cartDetails.filter
        (fun d => d.cartId == cart.idCart && d.recordId == r)).map
      (fun d => (d.amount, d.price))
      = [(a1 + a2, rec0.price)] := by
  have hrid : rec0.idRecord = r := findRecord_idRecord hr
  have hphase1 : addMutationPhase st cart.idCart r a1 rec0.price
      = insertCartDetail st cart.idCart r a1 rec0.price := by
    unfold addMutationPhase
    rw [hnone]
  have hst1 : (addToCart e r a1 st).2
      = updateCartTotalPrice
          (updateRecordStock (insertCartDetail st cart.idCart r a1 rec0.price) r (-a1))
          cart.idCart (rec0.price * a1) := by
    rw [addToCart_found_eq e r a1 st cart rec0 h1 hc hr hs1, hphase1]
  have hd1 : (addToCart e r a1 st).2.cartDetails
      = st.cartDetails ++ [⟨st.nextCartDetailId, cart.idCart, r, a1, rec0.price⟩] := by
    rw [hst1]
    rfl
  have hr1 : findRecord (addToCart e r a1 st).2 r
      = some ⟨rec0.idRecord, rec0.price, rec0.stock + -a1⟩ := by
    rw [hst1,
      findRecord_congr (show (updateCartTotalPrice
        (updateRecordStock (insertCartDetail st cart.idCart r a1 rec0.price) r (-a1))
        cart.idCart (rec0.price * a1)).records
        = (updateRecordStock (insertCartDetail st cart.idCart r a1 rec0.price) r (-a1)).records
        from rfl),
      findRecord_updateRecordStock,
      findRecord_congr (show (insertCartDetail st cart.idCart r a1 rec0.price).records
        = st.records from rfl),
      hr]
    simp [hrid]
  have hc1 : findEnabledCart (addToCart e r a1 st).2 e
      = some { cart with totalPrice := cart.totalPrice + rec0.price * a1 } := by
    rw [hst1, findEnabledCart_updateCartTotalPrice,
      findEnabledCart_congr (show (updateRecordStock
        (insertCartDetail st cart.idCart r a1 rec0.price) r (-a1)).carts = st.carts from rfl),
      hc]
    simp
  -- the state after the interleaved catalog price change
  have hr2 : findRecord (updateRecordPrice (addToCart e r a1 st).2 r p2) r
      = some ⟨rec0.idRecord, p2, rec0.stock + -a1⟩ := by
    rw [findRecord_updateRecordPrice, hr1]
    simp [hrid]
  have hc2 : findEnabledCart (updateRecordPrice (addToCart e r a1 st).2 r p2) e
      = some { cart with totalPrice := cart.totalPrice + rec0.price * a1 } := by
    rw [findEnabledCart_congr (show (updateRecordPrice (addToCart e r a1 st).2 r p2).carts
      = (addToCart e r a1 st).2.carts from rfl), hc1]
  have hd2details : (updateRecordPrice (addToCart e r a1 st).2 r p2).cartDetails
      = st.cartDetails ++ [⟨st.nextCartDetailId, cart.idCart, r, a1, rec0.price⟩] := by
    rw [show (updateRecordPrice (addToCart e r a1 st).2 r p2).cartDetails
      = (addToCart e r a1 st).2.cartDetails from rfl, hd1]
  have hnotmem : ∀ x ∈ st.cartDetails, ¬((x.cartId == cart.idCart && x.recordId == r) = true) := by
    have := List.find?_eq_none.mp hnone
    exact this
  have hd2 : findCartDetail (updateRecordPrice (addToCart e r a1 st).2 r p2)
      ({ cart with totalPrice := cart.totalPrice + rec0.price * a1 } : CartRow).idCart r
      = some ⟨st.nextCartDetailId, cart.idCart, r, a1, rec0.price⟩ := by
    show findCartDetail _ cart.idCart r = _
    unfold findCartDetail
    rw [hd2details, List.find?_append, List.find?_eq_none.mpr hnotmem]
    simp
  have hphase2 : addMutationPhase (updateRecordPrice (addToCart e r a1 st).2 r p2)
      ({ cart with totalPrice := cart.totalPrice + rec0.price * a1 } : CartRow).idCart r a2 p2
      = setCartDetailAmount (updateRecordPrice (addToCart e r a1 st).2 r p2)
          st.nextCartDetailId (a1 + a2) := by
    unfold addMutationPhase
    rw [hd2]
  have hsecond := addToCart_found_eq e r a2 (updateRecordPrice (addToCart e r a1 st).2 r p2)
    { cart with totalPrice := cart.totalPrice + rec0.price * a1 }
    ⟨rec0.idRecord, p2, rec0.stock + -a1⟩ h2 hc2 hr2 (by simp; omega)
  have hfinal : (addToCart e r a2 (updateRecordPrice (addToCart e r a1 st).2 r p2)).2.cartDetails
      = st.cartDetails
        ++ [⟨st.nextCartDetailId, cart.idCart, r, a1 + a2, rec0.price⟩] := by
    rw [hsecond]
    show (addMutationPhase (updateRecordPrice (addToCart e r a1 st).2 r p2)
        ({ cart with totalPrice := cart.totalPrice + rec0.price * a1 } : CartRow).idCart
        r a2 (⟨rec0.idRecord, p2, rec0.stock + -a1⟩ : RecordRow).price).cartDetails = _
    rw [hphase2]
    show ((updateRecordPrice (addToCart e r a1 st).2 r p2).cartDetails.map (fun x =>
      if x.idCartDetail == st.nextCartDetailId then { x with amount := a1 + a2 } else x)) = _
    rw [hd2details, List.map_append,
      map_if_id _ _ st.cartDetails (fun x hx => by
        have := hwf.2 x hx
        simp
        omega)]
    simp
  rw [hfinal, List.filter_append,
    List.filter_eq_nil_iff.mpr hnotmem]
  simp

/-- Witness for C9: amounts 2 then 3 at first price 10, catalog price moved
to 20 in between; the single resulting line is (amount 5, price 10). -/
theorem idempotent_merge_witness :
    ((addToCart "u" 1 3 (updateRecordPrice (addToCart "u" 1 2 exSt0).2 1 20)).2.cartDetails.filter
        (fun d => d.cartId == 1 && d.recordId == 1)).map (fun d => (d.amount, d.price))
      = [(5, 10)] :=
  idempotent_merge "u" 1 2 3 20 exSt0 ⟨1, "u", 0, true⟩ ⟨1, 10, 5⟩
    (by decide) (by decide) (by decide) (by decide)
    (by decide) (by decide) (by decide) (by decide)

theorem find_cart_id_unique {l : List CartRow}
    (hnd : (l.map (fun c => c.idCart)).Nodup) {cart : CartRow} (hmem : cart ∈ l) :
    l.find? (fun c => c.idCart == cart.idCart) = some cart := by
  induction l with
  | nil => cases hmem
  | cons x xs ih =>
    simp only [List.map_cons, List.nodup_cons] at hnd
    rcases List.mem_cons.mp hmem with rfl | hmem'
    · rw [List.find?_cons_of_pos _ (by simp)]
    · have hne : x.idCart ≠ cart.idCart := by
        intro hcontra
        exact hnd.1 (hcontra ▸ List.mem_map_of_mem (fun c => c.idCart) hmem')
      rw [List.find?_cons_of_neg _ (by simp [hne]), ih hnd.2 hmem']

/-- Counterexample to C2 as stated: item added at catalog price 10 (two
units, snapshot price 10, cart total 20), catalog price then changed to 20;
a further `addToCart` of one unit raises the total to 40, i.e. by the live
catalog price 20, not to 30 as the snapshot-price claim requires. -/
theorem add_snapshot_price_counterexample :
    cartTotalOf (updateRecordPrice (addToCart "u" 1 2 exSt0).2 1 20) 1 = 20 ∧
    (findCartDetail (updateRecordPrice (addToCart "u" 1 2 exSt0).2 1 20) 1 1).map
        (fun d => d.price) = some 10 ∧
    cartTotalOf (addToCart "u" 1 1 (updateRecordPrice (addToCart "u" 1 2 exSt0).2 1 20)).2 1 = 40 ∧
    (40 : Int) ≠ 20 + 10 * 1 := by
  refine ⟨by decide, by decide, by decide, by decide⟩

/-- C2 (amended): when a cart line for (cart, item) already exists,
`addToCart` increments the cart's `totalPrice` by the item's CURRENT catalog
price times the requested amount (`recordData.Price * amount`), not by the
line's snapshot price; the line itself keeps its stored snapshot price,
only its amount grows. -/
theorem add_increments_total_by_live_price (e : String) (r : Nat) (a : Int) (st : Db)
    (cart : CartRow) (rec0 : RecordRow) (d : CartDetailRow)
    (hwfc : WfCartIds st)
    (hpos : 0 < a)
    (hc : findEnabledCart st e = some cart)
    (hr : findRecord st r = some rec0)
    (hd : findCartDetail st cart.idCart r = some d)
    (hstk : a ≤ rec0.stock) :
    cartTotalOf (addToCart e r a st).2 cart.idCart = cart.totalPrice + rec0.price * a ∧
    findCartDetail (addToCart e r a st).2 cart.idCart r
      = some { d with amount := d.amount + a } := by
  have hphase : addMutationPhase st cart.idCart r a rec0.price
      = setCartDetailAmount st d.idCartDetail (d.amount + a) := by
    unfold addMutationPhase
    rw [hd]
  have hst' : (addToCart e r a st).2
      = updateCartTotalPrice
          (updateRecordStock (setCartDetailAmount st d.idCartDetail (d.amount + a)) r (-a))
          cart.idCart (rec0.price * a) := by
    rw [addToCart_found_eq e r a st cart rec0 hpos hc hr hstk, hphase]
  have hmemc : cart ∈ st.carts := (findEnabledCart_spec hc).1
  constructor
  · rw [hst']
    show (match (updateCartTotalPrice
        (updateRecordStock (setCartDetailAmount st d.idCartDetail (d.amount + a)) r (-a))
        cart.idCart (rec0.price * a)).carts.find? (fun c => c.idCart == cart.idCart) with
      | some c => c.totalPrice
      | none => 0) = cart.totalPrice + rec0.price * a
    have hcarts : (updateCartTotalPrice
        (updateRecordStock (setCartDetailAmount st d.idCartDetail (d.amount + a)) r (-a))
        cart.idCart (rec0.price * a)).carts
        = st.carts.map (fun c =>
            if c.idCart == cart.idCart then
              { c with totalPrice := c.totalPrice + rec0.price * a } else c) := rfl
    rw [hcarts, find_map_pred _ _
      (fun c => by by_cases h : (c.idCart == cart.idCart) = true <;> simp [h]) _,
      find_cart_id_unique hwfc hmemc]
    simp
  · rw [hst']
    show findCartDetail _ cart.idCart r = _
    unfold findCartDetail
    have hdets : (updateCartTotalPrice
        (updateRecordStock (setCartDetailAmount st d.idCartDetail (d.amount + a)) r (-a))
        cart.idCart (rec0.price * a)).cartDetails
        = st.cartDetails.map (fun x =>
            if x.idCartDetail == d.idCartDetail then { x with amount := d.amount + a } else x) := rfl
    rw [hdets, find_map_pred _ _
      (fun x => by by_cases h : (x.idCartDetail == d.idCartDetail) = true <;> simp [h]) _]
    have hfd : st.cartDetails.find? (fun x => x.cartId == cart.idCart && x.recordId == r)
        = some d := hd
    rw [hfd]
    simp

/-- Witness for C2 (amended): with the line at snapshot price 10 and the
catalog price moved to 20, adding one unit raises the total from 20 to 40
and leaves the line's stored price at 10. -/
theorem add_increments_total_by_live_price_witness :
    cartTotalOf (addToCart "u" 1 1 (updateRecordPrice (addToCart "u" 1 2 exSt0).2 1 20)).2 1
        = 20 + 20 * 1 ∧
    findCartDetail (addToCart "u" 1 1 (updateRecordPrice (addToCart "u" 1 2 exSt0).2 1 20)).2 1 1
        = some ⟨1, 1, 1, 3, 10⟩ :=
  add_increments_total_by_live_price "u" 1 1
    (updateRecordPrice (addToCart "u" 1 2 exSt0).2 1 20)
    ⟨1, "u", 20, true⟩ ⟨1, 20, 3⟩ ⟨1, 1, 1, 2, 10⟩
    (by decide) (by decide) (by decide) (by decide) (by decide) (by decide)

theorem insertOrderDetails_spec (oid : Nat) (ds : List CartDetailRow) :
    ∀ st : Db,
      (insertOrderDetails st oid ds).orderDetails
        = st.orderDetails ++ mkOrderLines st.nextOrderDetailId oid ds ∧
      (insertOrderDetails st oid ds).records = st.records ∧
      (insertOrderDetails st oid ds).carts = st.carts ∧
      (insertOrderDetails st oid ds).cartDetails = st.cartDetails ∧
      (insertOrderDetails st oid ds).orders = st.orders ∧
      (insertOrderDetails st oid ds).nextCartDetailId = st.nextCartDetailId := by
  induction ds with
  | nil => intro st; simp [insertOrderDetails, mkOrderLines]
  | cons d ds ih =>
    intro st
    have hstep : insertOrderDetails st oid (d :: ds)
        = insertOrderDetails
            { st with
              orderDetails := st.orderDetails
                ++ [⟨st.nextOrderDetailId, oid, d.recordId, d.amount, d.price⟩],
              nextOrderDetailId := st.nextOrderDetailId + 1 } oid ds := rfl
    rw [hstep]
    obtain ⟨ha, hb, hcc, hdd, he, hf⟩ := ih
      { st with
        orderDetails := st.orderDetails
          ++ [⟨st.nextOrderDetailId, oid, d.recordId, d.amount, d.price⟩],
        nextOrderDetailId := st.nextOrderDetailId + 1 }
    refine ⟨?_, hb, hcc, hdd, he, hf⟩
    rw [ha]
    simp [mkOrderLines]

theorem mkOrderLines_map (oid : Nat) (ds : List CartDetailRow) :
    ∀ startId : Nat,
      (mkOrderLines startId oid ds).map (fun od => (od.recordId, od.amount, od.price))
        = ds.map (fun d => (d.recordId, d.amount, d.price)) := by
  induction ds with
  | nil => intro s; rfl
  | cons d ds ih => intro s; simp [mkOrderLines, ih]

theorem mkOrderLines_orderId (oid : Nat) (ds : List CartDetailRow) :
    ∀ startId : Nat, ∀ od ∈ mkOrderLines startId oid ds, od.orderId = oid := by
  induction ds with
  | nil => intro s od hod; cases hod
  | cons d ds ih =>
    intro s od hod
    rcases List.mem_cons.mp hod with rfl | hod'
    · rfl
    · exact ih (s + 1) od hod'

/-- C4: A successful `createOrderFromCart` on an active cart with positive
total and at least one line creates exactly one Order carrying
`total = cart.totalPrice`, one OrderLine per cart line copying amount and
price verbatim; afterward the cart has zero lines, its `totalPrice` is 0,
the cart row still exists with `enabled = true`, and no record's stock is
touched. -/
theorem order_conversion_resets_cart (e : String) (st : Db) (cart : CartRow)
    (hwfc : WfCartIds st)
    (hc : findEnabledCart st e = some cart)
    (htot : 0 < cart.totalPrice)
    (hne : st.cartDetails.filter (fun d => d.cartId == cart.idCart) ≠ []) :
    (createOrderFromCart e st false none).1 = .ok st.nextOrderId ∧
    (createOrderFromCart e st false none).2.orders
      = st.orders ++ [⟨st.nextOrderId, e, cart.totalPrice, cart.idCart⟩] ∧
    ((createOrderFromCart e st false none).2.orderDetails.drop st.orderDetails.length).map
        (fun od => (od.recordId, od.amount, od.price))
      = (st.cartDetails.filter (fun d => d.cartId == cart.idCart)).map
        (fun d => (d.recordId, d.amount, d.price)) ∧
    (∀ od ∈ (createOrderFromCart e st false none).2.orderDetails.drop st.orderDetails.length,
      od.orderId = st.nextOrderId) ∧
    (createOrderFromCart e st false none).2.cartDetails.filter
        (fun d => d.cartId == cart.idCart) = [] ∧
    (createOrderFromCart e st false none).2.carts.find? (fun c => c.idCart == cart.idCart)
      = some { cart with totalPrice := 0 } ∧
    cart.enabled = true ∧
    (createOrderFromCart e st false none).2.records = st.records := by
  have hdets : getCartDetailsByCartId st cart.idCart false
      = st.cartDetails.filter (fun d => d.cartId == cart.idCart) := rfl
  have hconv : createOrderFromCart e st false none
      = (.ok st.nextOrderId,
         updateCartTotalPrice
           (removeAllDetailsFromCart
             (insertOrderDetails
               { st with
                 orders := st.orders ++ [⟨st.nextOrderId, e, cart.totalPrice, cart.idCart⟩],
                 nextOrderId := st.nextOrderId + 1 }
               st.nextOrderId
               (st.cartDetails.filter (fun d => d.cartId == cart.idCart)))
             cart.idCart)
           cart.idCart (-cart.totalPrice)) := by
    unfold createOrderFromCart
    rw [hc]
    simp only []
    rw [if_neg (by omega), hdets,
      if_neg (by simpa [List.isEmpty_iff] using hne)]
  set stOrd : Db :=
    { st with
      orders := st.orders ++ [⟨st.nextOrderId, e, cart.totalPrice, cart.idCart⟩],
      nextOrderId := st.nextOrderId + 1 } with hstOrd
  obtain ⟨hiA, hiB, hiC, hiD, hiE, _⟩ := insertOrderDetails_spec st.nextOrderId
    (st.cartDetails.filter (fun d => d.cartId == cart.idCart)) stOrd
  rw [hconv]
  refine ⟨rfl, ?_, ?_, ?_, ?_, ?_, (findEnabledCart_spec hc).2.2, ?_⟩
  · show (insertOrderDetails stOrd st.nextOrderId
      (st.cartDetails.filter (fun d => d.cartId == cart.idCart))).orders = _
    rw [hiE]
  · show ((insertOrderDetails stOrd st.nextOrderId
        (st.cartDetails.filter (fun d => d.cartId == cart.idCart))).orderDetails.drop
        st.orderDetails.length).map (fun od => (od.recordId, od.amount, od.price)) = _
    rw [hiA]
    have : stOrd.orderDetails = st.orderDetails := rfl
    rw [this, List.drop_left, mkOrderLines_map]
  · intro od hod
    rw [show (updateCartTotalPrice (removeAllDetailsFromCart
        (insertOrderDetails stOrd st.nextOrderId
          (st.cartDetails.filter (fun d => d.cartId == cart.idCart))) cart.idCart)
        cart.idCart (-cart.totalPrice)).orderDetails
      = (insertOrderDetails stOrd st.nextOrderId
          (st.cartDetails.filter (fun d => d.cartId == cart.idCart))).orderDetails from rfl,
      hiA, show stOrd.orderDetails = st.orderDetails from rfl, List.drop_left] at hod
    exact mkOrderLines_orderId st.nextOrderId _ stOrd.nextOrderDetailId od hod
  · show ((insertOrderDetails stOrd st.nextOrderId
        (st.cartDetails.filter (fun d => d.cartId == cart.idCart))).cartDetails.filter
        (fun d => !(d.cartId == cart.idCart))).filter (fun d => d.cartId == cart.idCart) = []
    rw [hiD]
    rw [List.filter_eq_nil_iff]
    intro x hx
    have := List.of_mem_filter hx
    simp only [Bool.not_eq_true'] at this
    simp [this]
  · show ((insertOrderDetails stOrd st.nextOrderId
        (st.cartDetails.filter (fun d => d.cartId == cart.idCart))).carts.map
        (fun c => if c.idCart == cart.idCart then
          { c with totalPrice := c.totalPrice + -cart.totalPrice } else c)).find?
        (fun c => c.idCart == cart.idCart) = some { cart with totalPrice := 0 }
    rw [hiC]
    have hcarts : stOrd.carts = st.carts := rfl
    rw [hcarts, find_map_pred _ _
      (fun c => by by_cases h : (c.idCart == cart.idCart) = true <;> simp [h]) _,
      find_cart_id_unique hwfc (findEnabledCart_spec hc).1]
    simp
  · show (insertOrderDetails stOrd st.nextOrderId
      (st.cartDetails.filter (fun d => d.cartId == cart.idCart))).records = _
    rw [hiB]

/-- Witness for C4: converting the cart holding one line (amount 2, price
10, total 20) yields order 1 with total 20, one copied order line, an empty
cart with total 0 that is still enabled, and untouched records. -/
theorem order_conversion_resets_cart_witness :
    (createOrderFromCart "u" exStAdded false none).1 = .ok 1 ∧
    (createOrderFromCart "u" exStAdded false none).2.orders
      = exStAdded.orders ++ [⟨1, "u", 20, 1⟩] ∧
    ((createOrderFromCart "u" exStAdded false none).2.orderDetails.drop
        exStAdded.orderDetails.length).map (fun od => (od.recordId, od.amount, od.price))
      = (exStAdded.cartDetails.filter (fun d => d.cartId == 1)).map
        (fun d => (d.recordId, d.amount, d.price)) ∧
    (∀ od ∈ (createOrderFromCart "u" exStAdded false none).2.orderDetails.drop
        exStAdded.orderDetails.length, od.orderId = 1) ∧
    (createOrderFromCart "u" exStAdded false none).2.cartDetails.filter
        (fun d => d.cartId == 1) = [] ∧
    (createOrderFromCart "u" exStAdded false none).2.carts.find? (fun c => c.idCart == 1)
      = some ⟨1, "u", 0, true⟩ ∧
    (⟨1, "u", 20, true⟩ : CartRow).enabled = true ∧
    (createOrderFromCart "u" exStAdded false none).2.records = exStAdded.records :=
  order_conversion_resets_cart "u" exStAdded ⟨1, "u", 20, true⟩
    (by decide) (by decide) (by decide) (by decide)

/-- Counterexample to C3 as stated: with one line in the cart, a failure
while inserting the first order line (after the Order insert committed)
leaves the run failed but the Order row present — nothing was rolled back,
because `createOrderFromCart` opens no transaction. -/
theorem conversion_rollback_counterexample :
    (createOrderFromCart "u" exStAdded false (some 0)).1 = .failed ∧
    (createOrderFromCart "u" exStAdded false (some 0)).2.orders = [⟨1, "u", 20, 1⟩] ∧
    exStAdded.orders = [] := by
  refine ⟨by decide, by decide, by decide⟩

/-- C3 (amended): `createOrderFromCart` is NOT atomic — it opens no
transaction, so its writes are separate auto-committed statements.  A
failure while inserting order lines (after the Order insert) returns an
error but leaves the freshly inserted Order row (and the order lines already
inserted) committed, while the cart's lines, the carts table and the records
table are still untouched at that point. -/
theorem conversion_not_atomic (e : String) (st : Db) (cart : CartRow) (k : Nat)
    (hc : findEnabledCart st e = some cart)
    (htot : 0 < cart.totalPrice)
    (hne : st.cartDetails.filter (fun d => d.cartId == cart.idCart) ≠ []) :
    (createOrderFromCart e st false (some k)).1 = .failed ∧
    (createOrderFromCart e st false (some k)).2.orders
      = st.orders ++ [⟨st.nextOrderId, e, cart.totalPrice, cart.idCart⟩] ∧
    (createOrderFromCart e st false (some k)).2.cartDetails = st.cartDetails ∧
    (createOrderFromCart e st false (some k)).2.carts = st.carts ∧
    (createOrderFromCart e st false (some k)).2.records = st.records := by
  have hdets : getCartDetailsByCartId st cart.idCart false
      = st.cartDetails.filter (fun d => d.cartId == cart.idCart) := rfl
  have hconv : createOrderFromCart e st false (some k)
      = (.failed,
         insertOrderDetails
           { st with
             orders := st.orders ++ [⟨st.nextOrderId, e, cart.totalPrice, cart.idCart⟩],
             nextOrderId := st.nextOrderId + 1 }
           st.nextOrderId
           ((st.cartDetails.filter (fun d => d.cartId == cart.idCart)).take k)) := by
    unfold createOrderFromCart
    rw [hc]
    simp only []
    rw [if_neg (by omega), hdets,
      if_neg (by simpa [List.isEmpty_iff] using hne)]
  obtain ⟨hiA, hiB, hiC, hiD, hiE, _⟩ := insertOrderDetails_spec st.nextOrderId
    ((st.cartDetails.filter (fun d => d.cartId == cart.idCart)).take k)
    { st with
      orders := st.orders ++ [⟨st.nextOrderId, e, cart.totalPrice, cart.idCart⟩],
      nextOrderId := st.nextOrderId + 1 }
  rw [hconv]
  exact ⟨rfl, hiE, hiD, hiC, hiB⟩

/-- Witness for C3 (amended) at the one-line cart with a failure at the
first order-line insert. -/
theorem conversion_not_atomic_witness :
    (createOrderFromCart "u" exStAdded false (some 0)).1 = .failed ∧
    (createOrderFromCart "u" exStAdded false (some 0)).2.orders
      = exStAdded.orders ++ [⟨1, "u", 20, 1⟩] ∧
    (createOrderFromCart "u" exStAdded false (some 0)).2.cartDetails = exStAdded.cartDetails ∧
    (createOrderFromCart "u" exStAdded false (some 0)).2.carts = exStAdded.carts ∧
    (createOrderFromCart "u" exStAdded false (some 0)).2.records = exStAdded.records :=
  conversion_not_atomic "u" exStAdded ⟨1, "u", 20, true⟩ 0
    (by decide) (by decide) (by decide)

/-- C5 evaluated at the failing input: one cart line of 2 units (stock 3
after the reservation), and the `Enabled := false` save fails.  The
`updateStock` call inside `disableCart` committed its own transaction
(stock back to 5) before the failure, and the outer rollback undoes only
the save, so the cart stays enabled while the restored stock survives —
the restoration and the disable are NOT in one transaction. -/
theorem disable_commits_stock_outside_transaction :
    (disableCart "u" exStAdded false (some .save)).1 = .failed ∧
    stockOf exStAdded 1 = 3 ∧
    stockOf (disableCart "u" exStAdded false (some .save)).2 1 = 5 ∧
    activeCartsOf (disableCart "u" exStAdded false (some .save)).2 "u"
      = [⟨1, "u", 20, true⟩] := by
  refine ⟨by decide, by decide, by decide, by decide⟩

/-- Counterexample to C7 as stated: for a user with no cart at all,
`removeFromCart` DOES auto-create a cart (inside its transaction) before
failing; the claim that it never auto-creates one as part of handling the
removal is false, even though the rollback keeps the creation from
persisting. -/
theorem remove_autocreates_cart_counterexample :
    (removeFromCart "v" 1 1 exSt0).cartCreated = true ∧
    (removeFromCart "v" 1 1 exSt0).result = .itemNotFound ∧
    (removeFromCart "v" 1 1 exSt0).db = exSt0 := by
  refine ⟨by decide, by decide, by decide⟩

/-- C7 (amended): when the user has no active cart, `removeFromCart` first
auto-creates an (empty) active cart inside its transaction, then fails
NotFound for the missing cart line; the rollback discards every write of
the transaction — including the created cart — so the committed state is
unchanged. -/
theorem remove_no_active_cart (e : String) (r : Nat) (a : Int) (st : Db)
    (hpos : 0 < a)
    (hc : findEnabledCart st e = none)
    (hrefs : WfCartRefs st) :
    removeFromCart e r a st = ⟨.itemNotFound, st, true⟩ := by
  have hcreate : createCart st e
      = (⟨st.nextCartId, e, 0, true⟩,
         { st with carts := st.carts ++ [⟨st.nextCartId, e, 0, true⟩],
                   nextCartId := st.nextCartId + 1 }) := by
    unfold createCart
    rw [hc]
  have hnofind : findCartDetail
      { st with carts := st.carts ++ [⟨st.nextCartId, e, 0, true⟩],
                nextCartId := st.nextCartId + 1 }
      st.nextCartId r = none := by
    unfold findCartDetail
    rw [List.find?_eq_none]
    intro x hx
    have hxlt := hrefs x hx
    simp only [Bool.and_eq_true, beq_iff_eq, not_and]
    intro hxc
    omega
  unfold removeFromCart
  rw [if_neg (by omega)]
  simp only [hc, hcreate, hnofind]

/-- Witness for C7 (amended): user `v` has no cart in `exSt0`; the removal
reports the missing line, creates (and rolls back) a cart, and leaves the
state unchanged. -/
theorem remove_no_active_cart_witness :
    removeFromCart "v" 2 1 exSt0 = ⟨.itemNotFound, exSt0, true⟩ :=
  remove_no_active_cart "v" 2 1 exSt0 (by decide) (by decide) (by decide)

/-- C10: `getCartDetailsByCartId` swallows database errors and returns the
empty list.  Consequently, on a failing read `createOrderFromCart` reports
the cart as empty and creates no order (state unchanged), while
`disableCart` "succeeds": it restores zero stock (records unchanged, every
reservation silently dropped) and still disables the cart. -/
theorem cart_read_swallows_errors (e : String) (st : Db) (cart : CartRow)
    (hwfc : WfCartIds st)
    (hc : findEnabledCart st e = some cart)
    (htot : 0 < cart.totalPrice)
    (_hne : st.cartDetails.filter (fun d => d.cartId == cart.idCart) ≠ []) :
    getCartDetailsByCartId st cart.idCart true = [] ∧
    createOrderFromCart e st true none = (.cartEmpty, st) ∧
    (disableCart e st true none).1 = .ok cart.idCart ∧
    (disableCart e st true none).2.records = st.records ∧
    (disableCart e st true none).2.carts.find? (fun c => c.idCart == cart.idCart)
      = some { cart with enabled := false } := by
  have hdisable : disableCart e st true none
      = (.ok cart.idCart, setCartEnabled st cart.idCart false) := by
    unfold disableCart
    rw [hc]
    simp only [getCartDetailsByCartId, restoreStocks]
    rfl
  refine ⟨rfl, ?_, ?_, ?_, ?_⟩
  · unfold createOrderFromCart
    rw [hc]
    simp only []
    rw [if_neg (by omega)]
    rfl
  · rw [hdisable]
  · rw [hdisable]
    rfl
  · rw [hdisable]
    show (st.carts.map (fun c =>
        if c.idCart == cart.idCart then { c with enabled := false } else c)).find?
        (fun c => c.idCart == cart.idCart) = some { cart with enabled := false }
    rw [find_map_pred _ _
      (fun c => by by_cases h : (c.idCart == cart.idCart) = true <;> simp [h]) _,
      find_cart_id_unique hwfc (findEnabledCart_spec hc).1]
    simp

/-- Witness for C10 at the one-line cart: the failing read yields [], the
conversion refuses with `cartEmpty`, and the disable commits with no stock
restored. -/
theorem cart_read_swallows_errors_witness :
    getCartDetailsByCartId exStAdded 1 true = [] ∧
    createOrderFromCart "u" exStAdded true none = (.cartEmpty, exStAdded) ∧
    (disableCart "u" exStAdded true none).1 = .ok 1 ∧
    (disableCart "u" exStAdded true none).2.records = exStAdded.records ∧
    (disableCart "u" exStAdded true none).2.carts.find? (fun c => c.idCart == 1)
      = some ⟨1, "u", 20, false⟩ :=
  cart_read_swallows_errors "u" exStAdded ⟨1, "u", 20, true⟩
    (by decide) (by decide) (by decide) (by decide)

theorem inv_congr {st st' : Db} (h : st'.carts = st.carts)
    (hi : SingleActiveCartInv st) : SingleActiveCartInv st' := by
  unfold SingleActiveCartInv at *
  rw [h]
  exact hi

theorem addMutationPhase_carts (st1 : Db) (cid r : Nat) (a p0 : Int) :
    (addMutationPhase st1 cid r a p0).carts = st1.carts := by
  unfold addMutationPhase
  cases findCartDetail st1 cid r <;> rfl

theorem removeMutationPhase_carts (st1 : Db) (tid : Nat) (n : Int) :
    (removeMutationPhase st1 tid n).carts = st1.carts := by
  unfold removeMutationPhase
  split <;> rfl

theorem inv_filter_map_preserve (f : CartRow → CartRow)
    (hmail : ∀ c, (f c).userEmail = c.userEmail)
    (hen : ∀ c, (f c).enabled = c.enabled)
    (l : List CartRow)
    (h : (l.filter (fun c => c.enabled)).Pairwise (fun a b => a.userEmail ≠ b.userEmail)) :
    ((l.map f).filter (fun c => c.enabled)).Pairwise (fun a b => a.userEmail ≠ b.userEmail) := by
  rw [List.filter_map]
  have hpf : ((fun c : CartRow => c.enabled) ∘ f) = fun c : CartRow => c.enabled := by
    funext c
    exact hen c
  rw [hpf, List.pairwise_map]
  exact h.imp (fun hab => by
    rw [hmail, hmail]
    exact hab)

theorem inv_filter_append_cart (l : List CartRow) (c : CartRow)
    (h : (l.filter (fun x => x.enabled)).Pairwise (fun a b => a.userEmail ≠ b.userEmail))
    (hno : ∀ x ∈ l, (x.userEmail == c.userEmail && x.enabled) = false) :
    ((l ++ [c]).filter (fun x => x.enabled)).Pairwise
      (fun a b => a.userEmail ≠ b.userEmail) := by
  rw [List.filter_append, List.pairwise_append]
  refine ⟨h, ?_, ?_⟩
  · cases hcc : c.enabled
    · rw [List.filter_cons_of_neg (by simp [hcc])]
      exact List.Pairwise.nil
    · rw [List.filter_cons_of_pos (by simp [hcc])]
      exact List.pairwise_singleton _ _
  intro x hx b hb
  have hbc : b = c := by
    rcases List.mem_filter.mp hb with ⟨hb1, _⟩
    simpa using hb1
  subst hbc
  rcases List.mem_filter.mp hx with ⟨hx1, hx2⟩
  have hfx := hno x hx1
  rw [show x.enabled = true from by simpa using hx2, Bool.and_true] at hfx
  exact ne_of_beq_false hfx

theorem reenableFirstCart_mem (e : String) :
    ∀ l : List CartRow, ∀ x ∈ reenableFirstCart l e,
      x ∈ l ∨ (x.userEmail = e ∧ x.enabled = true) := by
  intro l
  induction l with
  | nil => intro x hx; cases hx
  | cons c cs ih =>
    intro x hx
    unfold reenableFirstCart at hx
    by_cases hce : (c.userEmail == e) = true
    · rw [if_pos hce] at hx
      rcases List.mem_cons.mp hx with rfl | hx'
      · exact Or.inr ⟨by simpa using hce, rfl⟩
      · exact Or.inl (List.mem_cons_of_mem c hx')
    · rw [if_neg hce] at hx
      rcases List.mem_cons.mp hx with rfl | hx'
      · exact Or.inl (List.mem_cons_self _ _)
      · rcases ih x hx' with hmem | hprop
        · exact Or.inl (List.mem_cons_of_mem c hmem)
        · exact Or.inr hprop

theorem inv_reenableFirst (e : String) :
    ∀ l : List CartRow,
      (∀ x ∈ l, (x.userEmail == e && x.enabled) = false) →
      (l.filter (fun c => c.enabled)).Pairwise (fun a b => a.userEmail ≠ b.userEmail) →
      ((reenableFirstCart l e).filter (fun c => c.enabled)).Pairwise
        (fun a b => a.userEmail ≠ b.userEmail) := by
  intro l
  induction l with
  | nil => intro _ _; simp [reenableFirstCart]
  | cons c cs ih =>
    intro hfind h
    unfold reenableFirstCart
    by_cases hce : (c.userEmail == e) = true
    · rw [if_pos hce]
      have hcen : c.enabled = false := by
        have := hfind c (List.mem_cons_self _ _)
        rw [hce, Bool.true_and] at this
        exact this
      rw [List.filter_cons_of_pos (by simp)]
      apply List.pairwise_cons.mpr
      constructor
      · intro b hb
        rcases List.mem_filter.mp hb with ⟨hb1, hb2⟩
        have hfb := hfind b (List.mem_cons_of_mem c hb1)
        rw [show b.enabled = true from by simpa using hb2, Bool.and_true] at hfb
        show c.userEmail ≠ b.userEmail
        have hceq : c.userEmail = e := by simpa using hce
        rw [hceq]
        exact (ne_of_beq_false hfb).symm
      · rw [List.filter_cons_of_neg (by simp [hcen])] at h
        exact h
    · rw [if_neg hce]
      have hfind' : ∀ x ∈ cs, (x.userEmail == e && x.enabled) = false :=
        fun x hx => hfind x (List.mem_cons_of_mem c hx)
      cases hcen : c.enabled
      · rw [List.filter_cons_of_neg (by simp [hcen])]
        rw [List.filter_cons_of_neg (by simp [hcen])] at h
        exact ih hfind' h
      · rw [List.filter_cons_of_pos (by simp [hcen])]
        rw [List.filter_cons_of_pos (by simp [hcen])] at h
        obtain ⟨hhead, htail⟩ := List.pairwise_cons.mp h
        apply List.pairwise_cons.mpr
        refine ⟨?_, ih hfind' htail⟩
        intro b hb
        rcases List.mem_filter.mp hb with ⟨hb1, hb2⟩
        rcases reenableFirstCart_mem e cs b hb1 with hmem | ⟨hbe, _⟩
        · exact hhead b (List.mem_filter.mpr ⟨hmem, hb2⟩)
        · show c.userEmail ≠ b.userEmail
          rw [hbe]
          intro hq
          rw [hq] at hce
          simp at hce

theorem filter_enabled_map_sublist (f : CartRow → CartRow)
    (hf : ∀ c, f c = c ∨ (f c).enabled = false) :
    ∀ l : List CartRow,
      List.Sublist ((l.map f).filter (fun c => c.enabled))
        (l.filter (fun c => c.enabled)) := by
  intro l
  induction l with
  | nil => simp
  | cons c cs ih =>
    rw [List.map_cons]
    rcases hf c with hfc | hfc
    · rw [hfc]
      cases hce : c.enabled
      · rw [List.filter_cons_of_neg (by simp [hce]), List.filter_cons_of_neg (by simp [hce])]
        exact ih
      · rw [List.filter_cons_of_pos (by simp [hce]), List.filter_cons_of_pos (by simp [hce])]
        exact List.Sublist.cons₂ c ih
    · rw [List.filter_cons_of_neg (by simp [hfc])]
      cases hce : c.enabled
      · rw [List.filter_cons_of_neg (by simp [hce])]
        exact ih
      · rw [List.filter_cons_of_pos (by simp [hce])]
        exact List.Sublist.cons c ih

theorem inv_enable_map (e : String) :
    ∀ l : List CartRow,
      (l.filter (fun c => c.userEmail == e)).length ≤ 1 →
      (l.filter (fun c => c.enabled)).Pairwise (fun a b => a.userEmail ≠ b.userEmail) →
      ((l.map (fun c =>
          if c.userEmail == e && !c.enabled then { c with enabled := true } else c)).filter
        (fun c => c.enabled)).Pairwise (fun a b => a.userEmail ≠ b.userEmail) := by
  intro l
  induction l with
  | nil => intro _ _; simp
  | cons c cs ih =>
    intro hcount h
    rw [List.map_cons]
    by_cases hce : (c.userEmail == e) = true
    · have hcs : ∀ x ∈ cs, (x.userEmail == e) = false := by
        rw [List.filter_cons_of_pos (by simpa using hce), List.length_cons] at hcount
        have hlen : (cs.filter (fun c => c.userEmail == e)).length = 0 := by omega
        have := List.filter_eq_nil_iff.mp (List.length_eq_zero.mp hlen)
        intro x hx
        have hnx := this x hx
        simpa using hnx
      have hmap : cs.map (fun x =>
          if x.userEmail == e && !x.enabled then { x with enabled := true } else x) = cs :=
        map_if_id _ _ cs (fun x hx => by simp [hcs x hx])
      rw [hmap]
      cases hcen : c.enabled
      · rw [if_pos (by simp [hce]), List.filter_cons_of_pos (by simp)]
        apply List.pairwise_cons.mpr
        constructor
        · intro b hb
          rcases List.mem_filter.mp hb with ⟨hb1, _⟩
          have hbe := hcs b hb1
          show c.userEmail ≠ b.userEmail
          have hceq : c.userEmail = e := by simpa using hce
          rw [hceq]
          exact (ne_of_beq_false hbe).symm
        · rw [List.filter_cons_of_neg (by simp [hcen])] at h
          exact h
      · rw [if_neg (by simp), List.filter_cons_of_pos (by simp [hcen])]
        rw [List.filter_cons_of_pos (by simp [hcen])] at h
        exact h
    · have hce' : (c.userEmail == e) = false := by simpa using hce
      have hcond : (c.userEmail == e && !c.enabled) = false := by simp [hce']
      rw [if_neg (by simp [hcond])]
      have hcount' : (cs.filter (fun c => c.userEmail == e)).length ≤ 1 := by
        rw [List.filter_cons_of_neg (by simp [hce'])] at hcount
        exact hcount
      cases hcen : c.enabled
      · rw [List.filter_cons_of_neg (by simp [hcen])]
        rw [List.filter_cons_of_neg (by simp [hcen])] at h
        exact ih hcount' h
      · rw [List.filter_cons_of_pos (by simp [hcen])]
        rw [List.filter_cons_of_pos (by simp [hcen])] at h
        obtain ⟨hhead, htail⟩ := List.pairwise_cons.mp h
        apply List.pairwise_cons.mpr
        refine ⟨?_, ih hcount' htail⟩
        intro b hb
        rcases List.mem_filter.mp hb with ⟨hb1, hb2⟩
        obtain ⟨y, hy, hyb⟩ := List.mem_map.mp hb1
        cases hcnd : (y.userEmail == e && !y.enabled)
        · rw [hcnd] at hyb
          simp only [Bool.false_eq_true, if_false] at hyb
          subst hyb
          exact hhead y (List.mem_filter.mpr ⟨hy, hb2⟩)
        · rw [hcnd] at hyb
          simp only [if_true] at hyb
          subst hyb
          show c.userEmail ≠ y.userEmail
          have h2 := hcnd
          simp only [Bool.and_eq_true, beq_iff_eq] at h2
          rw [h2.1]
          exact ne_of_beq_false hce'

theorem updateStock_carts {st st' : Db} {rid : Nat} {amt : Int}
    (h : updateStock st rid amt = some st') : st'.carts = st.carts := by
  unfold updateStock at h
  cases hf : findRecord st rid with
  | none => rw [hf] at h; exact absurd h (by simp)
  | some r0 =>
    rw [hf] at h
    simp only [] at h
    split at h
    · exact absurd h (by simp)
    · have : setRecordStock st rid (r0.stock + amt) = st' := by
        injection h
      rw [← this]
      rfl

theorem restoreStocks_carts (ds : List CartDetailRow) :
    ∀ (st : Db) (i : Nat) (f : Option DisableFault),
      (restoreStocks st ds i f).1.carts = st.carts := by
  induction ds with
  | nil => intro st i f; rfl
  | cons d ds ih =>
    intro st i f
    unfold restoreStocks
    split
    · rfl
    · cases hupd : updateStock st d.recordId d.amount with
      | none => rfl
      | some st' =>
        rw [ih st' (i + 1) f, updateStock_carts hupd]

theorem addToCart_preserves_inv (e : String) (r : Nat) (a : Int) (st : Db)
    (hinv : SingleActiveCartInv st) : SingleActiveCartInv (addToCart e r a st).2 := by
  unfold addToCart
  split
  · exact hinv
  cases hrec : findRecord st r with
  | none => exact hinv
  | some rec0 =>
    simp only []
    split
    · exact hinv
    cases hE : findEnabledCart st e with
    | some c =>
      show SingleActiveCartInv
        (updateCartTotalPrice
          (updateRecordStock (addMutationPhase st c.idCart r a rec0.price) r (-a))
          c.idCart (rec0.price * a))
      have hcarts : (updateCartTotalPrice
          (updateRecordStock (addMutationPhase st c.idCart r a rec0.price) r (-a))
          c.idCart (rec0.price * a)).carts
          = st.carts.map (fun x =>
              if x.idCart == c.idCart then
                { x with totalPrice := x.totalPrice + rec0.price * a } else x) := by
        show ((updateRecordStock (addMutationPhase st c.idCart r a rec0.price) r (-a)).carts.map _) = _
        rw [show (updateRecordStock (addMutationPhase st c.idCart r a rec0.price) r (-a)).carts
          = (addMutationPhase st c.idCart r a rec0.price).carts from rfl,
          addMutationPhase_carts]
      unfold SingleActiveCartInv
      rw [hcarts]
      exact inv_filter_map_preserve _ (fun x => by split <;> rfl) (fun x => by split <;> rfl)
        _ hinv
    | none =>
      show SingleActiveCartInv
        (updateCartTotalPrice
          (updateRecordStock
            (addMutationPhase (insertCartOnConflict st e).2
              (insertCartOnConflict st e).1.idCart r a rec0.price) r (-a))
          (insertCartOnConflict st e).1.idCart (rec0.price * a))
      have hE' : st.carts.find? (fun c => c.userEmail == e && c.enabled) = none := hE
      have hfindall : ∀ x ∈ st.carts, (x.userEmail == e && x.enabled) = false := by
        intro x hx
        have := List.find?_eq_none.mp hE' x hx
        simpa using this
      have hinvres : SingleActiveCartInv (insertCartOnConflict st e).2 := by
        unfold insertCartOnConflict
        cases hF : st.carts.find? (fun c => c.userEmail == e) with
        | some c0 =>
          show SingleActiveCartInv { st with carts := reenableFirstCart st.carts e }
          unfold SingleActiveCartInv
          exact inv_reenableFirst e st.carts hfindall hinv
        | none =>
          show SingleActiveCartInv
            { st with carts := st.carts ++ [⟨st.nextCartId, e, 0, true⟩],
                      nextCartId := st.nextCartId + 1 }
          unfold SingleActiveCartInv
          exact inv_filter_append_cart st.carts _ hinv (fun x hx => hfindall x hx)
      have hcarts : (updateCartTotalPrice
          (updateRecordStock
            (addMutationPhase (insertCartOnConflict st e).2
              (insertCartOnConflict st e).1.idCart r a rec0.price) r (-a))
          (insertCartOnConflict st e).1.idCart (rec0.price * a)).carts
          = (insertCartOnConflict st e).2.carts.map (fun x =>
              if x.idCart == (insertCartOnConflict st e).1.idCart then
                { x with totalPrice := x.totalPrice + rec0.price * a } else x) := by
        show (((updateRecordStock
            (addMutationPhase (insertCartOnConflict st e).2
              (insertCartOnConflict st e).1.idCart r a rec0.price) r (-a))).carts.map _) = _
        rw [show (updateRecordStock
            (addMutationPhase (insertCartOnConflict st e).2
              (insertCartOnConflict st e).1.idCart r a rec0.price) r (-a)).carts
          = (addMutationPhase (insertCartOnConflict st e).2
              (insertCartOnConflict st e).1.idCart r a rec0.price).carts from rfl,
          addMutationPhase_carts]
      unfold SingleActiveCartInv
      rw [hcarts]
      exact inv_filter_map_preserve _ (fun x => by split <;> rfl) (fun x => by split <;> rfl)
        _ hinvres

theorem removeFromCart_preserves_inv (e : String) (r : Nat) (a : Int) (st : Db)
    (hinv : SingleActiveCartInv st) : SingleActiveCartInv (removeFromCart e r a st).db := by
  unfold removeFromCart
  split
  · exact hinv
  cases hE : findEnabledCart st e with
  | some c =>
    simp only []
    cases hd : findCartDetail st c.idCart r with
    | none => exact hinv
    | some d =>
      simp only []
      split
      · exact hinv
      show SingleActiveCartInv
        (updateCartTotalPrice
          (updateRecordStock (removeMutationPhase st d.idCartDetail (d.amount - a)) r a)
          c.idCart (-(d.price * a)))
      have hcarts : (updateCartTotalPrice
          (updateRecordStock (removeMutationPhase st d.idCartDetail (d.amount - a)) r a)
          c.idCart (-(d.price * a))).carts
          = st.carts.map (fun x =>
              if x.idCart == c.idCart then
                { x with totalPrice := x.totalPrice + -(d.price * a) } else x) := by
        show ((updateRecordStock (removeMutationPhase st d.idCartDetail (d.amount - a)) r a).carts.map _) = _
        rw [show (updateRecordStock (removeMutationPhase st d.idCartDetail (d.amount - a)) r a).carts
          = (removeMutationPhase st d.idCartDetail (d.amount - a)).carts from rfl,
          removeMutationPhase_carts]
      unfold SingleActiveCartInv
      rw [hcarts]
      exact inv_filter_map_preserve _ (fun x => by split <;> rfl) (fun x => by split <;> rfl)
        _ hinv
  | none =>
    have hE' : st.carts.find? (fun c => c.userEmail == e && c.enabled) = none := hE
    have hfindall : ∀ x ∈ st.carts, (x.userEmail == e && x.enabled) = false := by
      intro x hx
      have := List.find?_eq_none.mp hE' x hx
      simpa using this
    have hcreate : createCart st e
        = (⟨st.nextCartId, e, 0, true⟩,
           { st with carts := st.carts ++ [⟨st.nextCartId, e, 0, true⟩],
                     nextCartId := st.nextCartId + 1 }) := by
      unfold createCart
      rw [hE]
    have hinvplus : SingleActiveCartInv
        { st with carts := st.carts ++ [⟨st.nextCartId, e, 0, true⟩],
                  nextCartId := st.nextCartId + 1 } := by
      unfold SingleActiveCartInv
      exact inv_filter_append_cart st.carts _ hinv (fun x hx => hfindall x hx)
    simp only [hcreate]
    cases hd : findCartDetail
        { st with carts := st.carts ++ [⟨st.nextCartId, e, 0, true⟩],
                  nextCartId := st.nextCartId + 1 } st.nextCartId r with
    | none => exact hinv
    | some d =>
      simp only []
      split
      · exact hinv
      show SingleActiveCartInv
        (updateCartTotalPrice
          (updateRecordStock
            (removeMutationPhase
              { st with carts := st.carts ++ [⟨st.nextCartId, e, 0, true⟩],
                        nextCartId := st.nextCartId + 1 }
              d.idCartDetail (d.amount - a)) r a)
          st.nextCartId (-(d.price * a)))
      have hcarts : (updateCartTotalPrice
          (updateRecordStock
            (removeMutationPhase
              { st with carts := st.carts ++ [⟨st.nextCartId, e, 0, true⟩],
                        nextCartId := st.nextCartId + 1 }
              d.idCartDetail (d.amount - a)) r a)
          st.nextCartId (-(d.price * a))).carts
          = (st.carts ++ ([⟨st.nextCartId, e, 0, true⟩] : List CartRow)).map
              (fun x : CartRow =>
              if x.idCart == st.nextCartId then
                { x with totalPrice := x.totalPrice + -(d.price * a) } else x) := by
        show ((updateRecordStock
            (removeMutationPhase
              { st with carts := st.carts ++ [⟨st.nextCartId, e, 0, true⟩],
                        nextCartId := st.nextCartId + 1 }
              d.idCartDetail (d.amount - a)) r a).carts.map _) = _
        rw [show (updateRecordStock
            (removeMutationPhase
              { st with carts := st.carts ++ [⟨st.nextCartId, e, 0, true⟩],
                        nextCartId := st.nextCartId + 1 }
              d.idCartDetail (d.amount - a)) r a).carts
          = (removeMutationPhase
              { st with carts := st.carts ++ [⟨st.nextCartId, e, 0, true⟩],
                        nextCartId := st.nextCartId + 1 }
              d.idCartDetail (d.amount - a)).carts from rfl,
          removeMutationPhase_carts]
      unfold SingleActiveCartInv
      rw [hcarts]
      exact inv_filter_map_preserve _ (fun x => by split <;> rfl) (fun x => by split <;> rfl)
        _ hinvplus

theorem convert_preserves_inv (e : String) (st : Db) (rf : Bool) (f : Option Nat)
    (hinv : SingleActiveCartInv st) :
    SingleActiveCartInv (createOrderFromCart e st rf f).2 := by
  unfold createOrderFromCart
  cases hE : findEnabledCart st e with
  | none => exact hinv
  | some cart =>
    simp only []
    split
    · exact hinv
    split
    · exact hinv
    cases f with
    | some k =>
      have hcarts := (insertOrderDetails_spec st.nextOrderId
        ((getCartDetailsByCartId st cart.idCart rf).take k)
        { st with
          orders := st.orders ++ [⟨st.nextOrderId, e, cart.totalPrice, cart.idCart⟩],
          nextOrderId := st.nextOrderId + 1 }).2.2.1
      exact inv_congr hcarts hinv
    | none =>
      have hcarts := (insertOrderDetails_spec st.nextOrderId
        (getCartDetailsByCartId st cart.idCart rf)
        { st with
          orders := st.orders ++ [⟨st.nextOrderId, e, cart.totalPrice, cart.idCart⟩],
          nextOrderId := st.nextOrderId + 1 }).2.2.1
      show SingleActiveCartInv
        (updateCartTotalPrice
          (removeAllDetailsFromCart
            (insertOrderDetails
              { st with
                orders := st.orders ++ [⟨st.nextOrderId, e, cart.totalPrice, cart.idCart⟩],
                nextOrderId := st.nextOrderId + 1 }
              st.nextOrderId (getCartDetailsByCartId st cart.idCart rf))
            cart.idCart)
          cart.idCart (-cart.totalPrice))
      have hc2 : (updateCartTotalPrice
          (removeAllDetailsFromCart
            (insertOrderDetails
              { st with
                orders := st.orders ++ [⟨st.nextOrderId, e, cart.totalPrice, cart.idCart⟩],
                nextOrderId := st.nextOrderId + 1 }
              st.nextOrderId (getCartDetailsByCartId st cart.idCart rf))
            cart.idCart)
          cart.idCart (-cart.totalPrice)).carts
          = st.carts.map (fun x =>
              if x.idCart == cart.idCart then
                { x with totalPrice := x.totalPrice + -cart.totalPrice } else x) := by
        show ((insertOrderDetails
              { st with
                orders := st.orders ++ [⟨st.nextOrderId, e, cart.totalPrice, cart.idCart⟩],
                nextOrderId := st.nextOrderId + 1 }
              st.nextOrderId (getCartDetailsByCartId st cart.idCart rf)).carts.map _) = _
        rw [hcarts]
      unfold SingleActiveCartInv
      rw [hc2]
      exact inv_filter_map_preserve _ (fun x => by split <;> rfl) (fun x => by split <;> rfl)
        _ hinv

theorem disable_preserves_inv (e : String) (st : Db) (rf : Bool)
    (f : Option DisableFault) (hinv : SingleActiveCartInv st) :
    SingleActiveCartInv (disableCart e st rf f).2 := by
  unfold disableCart
  cases hE : findEnabledCart st e with
  | none => exact hinv
  | some cart =>
    simp only []
    have hrc : (restoreStocks st (getCartDetailsByCartId st cart.idCart rf) 0 f).1.carts
        = st.carts := restoreStocks_carts _ st 0 f
    split
    · exact inv_congr hrc hinv
    split
    · exact inv_congr hrc hinv
    show SingleActiveCartInv
      (setCartEnabled (restoreStocks st (getCartDetailsByCartId st cart.idCart rf) 0 f).1
        cart.idCart false)
    have hc2 : (setCartEnabled
        (restoreStocks st (getCartDetailsByCartId st cart.idCart rf) 0 f).1
        cart.idCart false).carts
        = st.carts.map (fun x =>
            if x.idCart == cart.idCart then { x with enabled := false } else x) := by
      show ((restoreStocks st (getCartDetailsByCartId st cart.idCart rf) 0 f).1.carts.map _) = _
      rw [hrc]
    unfold SingleActiveCartInv
    rw [hc2]
    have hf : ∀ c : CartRow,
        (if c.idCart == cart.idCart then { c with enabled := false } else c) = c ∨
        (if c.idCart == cart.idCart then { c with enabled := false } else c).enabled = false := by
      intro c
      by_cases h : (c.idCart == cart.idCart) = true
      · right
        simp [h]
      · left
        simp [h]
    exact List.Pairwise.sublist (filter_enabled_map_sublist _ hf st.carts) hinv

theorem enable_preserves_inv (e : String) (st : Db)
    (hinv : SingleActiveCartInv st)
    (hcount : (cartsOf st e).length ≤ 1) :
    SingleActiveCartInv (enableCart e st).2 := by
  unfold enableCart
  split
  · show SingleActiveCartInv
      { st with carts := st.carts.map (fun c =>
          if c.userEmail == e && !c.enabled then { c with enabled := true } else c) }
    unfold SingleActiveCartInv
    exact inv_enable_map e st.carts hcount hinv
  · exact hinv

/-- Counterexample to C6 as stated: a user with two disabled carts (a state
satisfying the single-active-cart invariant, zero active carts) ends up with
TWO active carts after `enableCart`, because the update enables every
disabled cart of the user. -/
theorem enable_all_disabled_counterexample :
    SingleActiveCartInv exStTwoDisabled ∧
    (activeCartsOf exStTwoDisabled "u").length = 0 ∧
    ¬ SingleActiveCartInv (applySysOp exStTwoDisabled (.enable "u")) ∧
    (activeCartsOf (applySysOp exStTwoDisabled (.enable "u")) "u").length = 2 := by
  refine ⟨by decide, by decide, by decide, by decide⟩

/-- C6 (amended): at most one active cart per user is preserved by
`addToCart` (lookup, conflict-handling insert or re-enable of the single
existing row), `removeFromCart` (including its auto-created cart),
`createOrderFromCart` and `disableCart` under any modeled outcome; `enableCart`
however re-enables EVERY disabled cart of the user, so it preserves the
invariant only when the user has at most one cart row — applied to a user
with several disabled carts it produces several active ones. -/
theorem single_active_cart_preserved (st : Db) (op : SysOp)
    (hinv : SingleActiveCartInv st)
    (henable : ∀ e, op = SysOp.enable e → (cartsOf st e).length ≤ 1) :
    SingleActiveCartInv (applySysOp st op) := by
  cases op with
  | add e r a => exact addToCart_preserves_inv e r a st hinv
  | remove e r a => exact removeFromCart_preserves_inv e r a st hinv
  | convert e rf f => exact convert_preserves_inv e st rf f hinv
  | disable e rf f => exact disable_preserves_inv e st rf f hinv
  | enable e => exact enable_preserves_inv e st hinv (henable e rfl)

/-- Witness for C6 (amended): enabling the single disabled cart of a user
keeps the invariant. -/
theorem single_active_cart_preserved_witness :
    SingleActiveCartInv (applySysOp exStOneDisabled (.enable "u")) :=
  single_active_cart_preserved exStOneDisabled (.enable "u") (by decide)
    (fun e he => by cases he; decide)

end ECommerce
